import Mathlib

/-!
# Verification of the `api_transformer` streaming proxy

This file gives a shallow embedding, in Lean 4, of the parts of the
`api_transformer` Python package that the specification's claims are about:

* `openai_stream_to_anthropic_stream.py` — the streaming transform
  (`iter_anthropic_events` and its helpers `_ensure_message_started`,
  `_ensure_text_block`, `_ensure_tool_block`, `_close_active_block`,
  `_emit_thinking_block`) and the SSE framer `iter_openai_sse_json_events`;
* `server.py` — the model-map resolver `_map_model_and_extras` and
  `_normalize_model_map_value`;
* `anthropic_to_openai.py` — the scalar parameter clauses of
  `convert_anthropic_to_openai_request`.

Python dictionaries are modelled as association lists, `Optional` values as
`Option`, machine strings as Lean `String`s, and Python's falsy-aware `or`
chains by explicit helpers (`strOr`, `firstTruthy`).  The Python generator
`iter_anthropic_events` is modelled as a fold over the input event list with
an explicit halt flag (the generator's `return` in the terminal branch).
-/

/-! ## Python-style string and `or` helpers -/

/-- Python `str(a or b)` for `a : Optional[str]`, `b : str`: the empty string
and `None` are falsy, anything else is returned unchanged. -/
def strOr (a : Option String) (b : String) : String :=
  match a with
  | some s => if s = "" then b else s
  | none => b

/-- The first truthy (present and non-empty) string of a Python `or` chain,
or `none` when every link is falsy. -/
def firstTruthy (xs : List (Option String)) : Option String :=
  xs.findSome? (fun o =>
    match o with
    | some s => if s = "" then none else some s
    | none => none)

/-- Python `s[n:]` (character based, as Python strings are sequences of
code points). -/
def pyDrop (s : String) (n : Nat) : String :=
  String.mk (s.data.drop n)

/-- Python `s[a:b]` for `0 ≤ a`, `0 ≤ b`. -/
def pySlice (s : String) (a b : Nat) : String :=
  String.mk ((s.data.drop a).take (b - a))

/-- Lowercase hexadecimal digit. -/
def hexDigit (n : Nat) : Char :=
  if n < 10 then Char.ofNat (48 + n) else Char.ofNat (87 + n)

/-- Four lowercase hexadecimal digits, as in `\uXXXX` escapes. -/
def hex4 (n : Nat) : String :=
  String.mk [hexDigit (n / 4096 % 16), hexDigit (n / 256 % 16),
             hexDigit (n / 16 % 16), hexDigit (n % 16)]

/-- One character of `json.dumps(..., ensure_ascii=True)` string output:
quote and backslash are escaped, the usual control-character short escapes
apply, all other control or non-ASCII characters become `\uXXXX` (with
surrogate pairs beyond the BMP). -/
def escapeJsonChar (c : Char) : String :=
  if c = '"' then "\\\""
  else if c = '\\' then "\\\\"
  else if c = '\n' then "\\n"
  else if c = '\r' then "\\r"
  else if c = '\t' then "\\t"
  else if c = Char.ofNat 8 then "\\b"
  else if c = Char.ofNat 12 then "\\f"
  else if c.toNat < 32 then "\\u" ++ hex4 c.toNat
  else if c.toNat < 127 then String.mk [c]
  else if c.toNat < 65536 then "\\u" ++ hex4 c.toNat
  else
    let v := c.toNat - 65536
    "\\u" ++ hex4 (55296 + v / 1024) ++ "\\u" ++ hex4 (56320 + v % 1024)

/-- `json.dumps` of a string with `ensure_ascii=True`. -/
def jsonQuote (s : String) : String :=
  "\"" ++ String.join (s.data.map escapeJsonChar) ++ "\""

/-- `json.dumps({"input": raw}, ensure_ascii=True)` with the default
separators — exactly the wrapping performed in the
`response.custom_tool_call_input.done` branch. -/
def jsonDumpsInputWrap (raw : String) : String :=
  "\x7b\"input\": " ++ jsonQuote raw ++ "\x7d"

/-- First-match lookup in an association list (Python `dict.get`). -/
def pyGet {β : Type} (xs : List (String × β)) (k : String) : Option β :=
  match xs with
  | [] => none
  | (k', v) :: rest => if k' = k then some v else pyGet rest k

/-- Key-presence test (Python `k in d`). -/
def pyHasKey {β : Type} (xs : List (String × β)) (k : String) : Bool :=
  match xs with
  | [] => false
  | (k', _) :: rest => if k' = k then true else pyHasKey rest k

/-- Replace the value at an existing key, or append the pair
(Python `d[k] = v` on a dict modelled as an insertion-ordered list). -/
def pySet {β : Type} (xs : List (String × β)) (k : String) (v : β) :
    List (String × β) :=
  match xs with
  | [] => [(k, v)]
  | (k', v') :: rest =>
    if k' = k then (k, v) :: rest else (k', v') :: pySet rest k v

/-! ## Data model of the streaming transform

The upstream (Responses) events are classified exactly as by the chain of
`if et == ...` tests in `iter_anthropic_events`; each constructor carries the
fields that the corresponding branch reads, with `Option` for `dict.get`. -/

/-- The fields of an output `item` dict that the code reads (`type`, `id`,
`name`, `call_id`, `summary`, `text`). -/
structure ItemF where
  itype : Option String := none
  id : Option String := none
  name : Option String := none
  call_id : Option String := none
  summary : Option String := none
  text : Option String := none
  deriving DecidableEq, Repr

/-- The fields of a `usage` dict that the code reads.  `output_tokens = some n`
models the key being present with an integer value. -/
structure UsageF where
  output_tokens : Option Int := none
  deriving DecidableEq, Repr

/-- The fields of `incomplete_details` that the code reads. -/
structure IncompleteF where
  reason : Option String := none
  deriving DecidableEq, Repr

/-- The fields of a `response` dict that the code reads. -/
structure RespF where
  model : Option String := none
  usage : Option UsageF := none
  incomplete_details : Option IncompleteF := none
  output : Option (List ItemF) := none
  reasoning_summary : Option String := none
  deriving DecidableEq, Repr

/-- The three terminal event types, handled identically by the code. -/
inductive TermKind
  | completed
  | incomplete
  | failed
  deriving DecidableEq, Repr

/-- Upstream Responses streaming events, one constructor per branch of
`iter_anthropic_events`:

* `reasoningSummaryDelta` / `reasoningSummaryDone` / `reasoningSummaryOther`
  — event types starting `response.reasoning_summary` and ending `.delta`,
  ending `.done`, or neither;
* `reasoningOther` — any other type starting `response.reasoning`;
* `created`, `outputItemAdded`, `outputTextDelta`, `outputTextDone`,
  `refusalDelta`, `fnArgsDelta`, `fnArgsDone`, `customInputDelta`,
  `customInputDone`, `outputItemDone` — the correspondingly named
  `response.*` event types;
* `terminal` — `response.completed` / `response.incomplete` /
  `response.failed`;
* `otherEvent` — a non-dict element or any unrecognized type (skipped). -/
inductive REvent
  | reasoningSummaryDelta (delta : Option String)
  | reasoningSummaryDone (summary : Option String) (text : Option String)
      (delta : Option String)
  | reasoningSummaryOther (summary : Option String) (text : Option String)
  | reasoningOther
  | created (response : Option RespF)
  | outputItemAdded (item : Option ItemF) (item_id : Option String)
  | outputTextDelta (delta : Option String)
  | outputTextDone
  | refusalDelta (delta : Option String)
  | fnArgsDelta (item_id : Option String) (delta : Option String)
  | fnArgsDone (item_id : Option String) (arguments : Option String)
  | customInputDelta (item_id : Option String) (delta : Option String)
  | customInputDone (item_id : Option String) (input : Option String)
  | outputItemDone (item : Option ItemF)
  | terminal (kind : TermKind) (response : Option RespF)
  | otherEvent
  deriving DecidableEq, Repr

/-- The `content_block` payload of a `content_block_start` event. -/
inductive BlockKind
  | text
  | tool_use (id : String) (name : String)
  | thinking
  deriving DecidableEq, Repr

/-- The `delta` payload of a `content_block_delta` event. -/
inductive DeltaKind
  | text_delta (text : String)
  | input_json_delta (partial_json : String)
  | thinking_delta (thinking : String)
  deriving DecidableEq, Repr

/-- Emitted Anthropic streaming events.  `index` is `Option Nat` because the
source writes `st.active_index`, an `Optional[int]`, into the emitted dicts.
`message_delta` carries `delta.stop_reason` and the `output_tokens` entry of
its `usage` dict (`none` models the empty `usage` dict). -/
inductive AEvent
  | message_start (id : String) (model : String)
  | content_block_start (index : Option Nat) (block : BlockKind)
  | content_block_delta (index : Option Nat) (delta : DeltaKind)
  | content_block_stop (index : Option Nat)
  | message_delta (stop_reason : Option String) (output_tokens : Option Int)
  | message_stop
  deriving DecidableEq, Repr

/-- The currently open block: the source encodes this as the strings
`"text"` and `"tool:<item_id>"` in `_StreamState.active_block`; the encoding
is injective, so we model it as a tag.  `startswith("tool:")` corresponds to
the `tool` constructor and `== f"tool:{item_id}"` to equality with
`tool item_id`. -/
inductive ActiveTag
  | text
  | tool (item_id : String)
  deriving DecidableEq, Repr

/-- `_ToolCallState` from the source. -/
structure _ToolCallState where
  item_id : String
  name : String
  call_id : String
  partial_json : String := ""
  emitted_chars : Nat := 0
  done : Bool := false
  deriving DecidableEq, Repr

/-- `_StreamState` from the source.  `tool_calls` is the insertion-ordered
dict, `last_emitted_block_type` keeps the source's string values
(`"text"` / `"tool_use"` / `"thinking"`). -/
structure _StreamState where
  message_id : String
  model : String
  started : Bool := false
  content_index : Nat := 0
  active_block : Option ActiveTag := none
  active_index : Option Nat := none
  tool_calls : List (String × _ToolCallState) := []
  tool_queue : List String := []
  pending_text : List String := []
  last_emitted_block_type : Option String := none
  response_usage : Option UsageF := none
  stop_reason : Option String := none
  reasoning_summary : String := ""
  reasoning_emitted : Bool := false
  deriving DecidableEq, Repr

/-! ## The emission helpers, one per source helper function -/

/-- `_ensure_message_started`. -/
def _ensure_message_started (st : _StreamState) : List AEvent × _StreamState :=
  if st.started then ([], st)
  else
    ([AEvent.message_start st.message_id st.model],
     { st with started := true, last_emitted_block_type := none })

/-- `_close_active_block`. -/
def _close_active_block (st : _StreamState) : List AEvent × _StreamState :=
  match st.active_block with
  | none => ([], st)
  | some _ =>
    let idx := st.active_index
    let st1 := { st with active_block := none, active_index := none }
    let st2 :=
      if st1.tool_queue ≠ [] ∧ st1.last_emitted_block_type = some "tool_use"
      then { st1 with tool_queue := st1.tool_queue.tail }
      else st1
    ([AEvent.content_block_stop idx], st2)

/-- `_ensure_text_block`. -/
def _ensure_text_block (st : _StreamState) : List AEvent × _StreamState :=
  if st.active_block = some ActiveTag.text then ([], st)
  else
    let (o1, st1) := _close_active_block st
    let idx := st1.content_index
    let st2 := { st1 with
      active_block := some ActiveTag.text,
      active_index := some idx,
      content_index := idx + 1,
      last_emitted_block_type := some "text" }
    (o1 ++ [AEvent.content_block_start (some idx) BlockKind.text], st2)

/-- The body of `_ensure_tool_block` after its two early-return guards
(the active-block check and the queue-head check). -/
def _ensure_tool_block_open (st : _StreamState) (item_id : String)
    (emit_buffered : Bool) : List AEvent × _StreamState :=
  match pyGet st.tool_calls item_id with
  | none => ([], st)
  | some tc =>
    let (o1, st1) := _close_active_block st
    let idx := st1.content_index
    let st2 := { st1 with
      active_block := some (ActiveTag.tool item_id),
      active_index := some idx,
      content_index := idx + 1,
      last_emitted_block_type := some "tool_use" }
    let o2 := o1 ++
      [AEvent.content_block_start (some idx)
         (BlockKind.tool_use tc.call_id tc.name),
       AEvent.content_block_delta (some idx)
         (DeltaKind.input_json_delta "")]
    if emit_buffered ∧ tc.partial_json ≠ "" ∧
        tc.emitted_chars < tc.partial_json.length then
      let suffix := pyDrop tc.partial_json tc.emitted_chars
      if suffix ≠ "" then
        let tc' := { tc with emitted_chars := tc.partial_json.length }
        (o2 ++ [AEvent.content_block_delta (some idx)
                  (DeltaKind.input_json_delta suffix)],
         { st2 with tool_calls := pySet st2.tool_calls item_id tc' })
      else (o2, st2)
    else (o2, st2)

/-- `_ensure_tool_block`. -/
def _ensure_tool_block (st : _StreamState) (item_id : String)
    (emit_buffered : Bool) : List AEvent × _StreamState :=
  if st.active_block = some (ActiveTag.tool item_id) then ([], st)
  else
    -- Only allow tool blocks in the order they were added.
    match st.tool_queue with
    | q0 :: _ =>
      if q0 ≠ item_id then ([], st)
      else _ensure_tool_block_open st item_id emit_buffered
    | [] => _ensure_tool_block_open st item_id emit_buffered

/-- `_emit_thinking_block`. -/
def _emit_thinking_block (st : _StreamState) (summary : String) :
    List AEvent × _StreamState :=
  let text := summary.trim
  if text = "" then ([], st)
  else
    let (o1, st1) := _ensure_message_started st
    let (o2, st2) := _close_active_block st1
    let idx := st2.content_index
    let st3 := { st2 with
      content_index := idx + 1,
      last_emitted_block_type := some "thinking" }
    (o1 ++ o2 ++
      [AEvent.content_block_start (some idx) BlockKind.thinking,
       AEvent.content_block_delta (some idx) (DeltaKind.thinking_delta text),
       AEvent.content_block_stop (some idx)], st3)

/-- Python `a or b` on an `Optional[str]` whose result is stored back into an
optional slot (used for `st.stop_reason = st.stop_reason or ...`). -/
def stopOr (a : Option String) (b : String) : Option String :=
  match a with
  | some s => if s = "" then some b else some s
  | none => some b

/-! ## The event step

`_step` is the body of the `for ev in openai_events:` loop of
`iter_anthropic_events`: it maps the state and one event to the list of
emitted Anthropic events, the successor state, and a halt flag modelling the
generator's `return` in the terminal branch. -/

/-- The closing tail of the terminal branch of `iter_anthropic_events`
(close the active block, optionally emit the thinking block, ensure
`message_start`, then `message_delta` and `message_stop` and return). -/
def _terminal_emit (keep_reasoning_summary : Bool) (st5 : _StreamState) :
    List AEvent × _StreamState × Bool :=
  let (o1, st6) := _close_active_block st5
  let (o2, st7) :=
    if keep_reasoning_summary ∧ st6.reasoning_summary ≠ "" ∧
        st6.reasoning_emitted = false then
      let (o, s) := _emit_thinking_block st6 st6.reasoning_summary
      (o, { s with reasoning_emitted := true })
    else ([], st6)
  let (o3, st8) := _ensure_message_started st7
  let outTok := st8.response_usage.bind (·.output_tokens)
  (o1 ++ o2 ++ o3 ++
    [AEvent.message_delta st8.stop_reason outTok, AEvent.message_stop],
   st8, true)

/-- One iteration of the event loop of `iter_anthropic_events`. -/
def _step (keep_reasoning_summary : Bool) (st : _StreamState) (ev : REvent) :
    List AEvent × _StreamState × Bool :=
  match ev with
  | REvent.reasoningSummaryDelta delta =>
    if keep_reasoning_summary then
      match delta with
      | some s =>
        if s = "" then ([], st, false)
        else ([], { st with reasoning_summary := st.reasoning_summary ++ s },
              false)
      | none => ([], st, false)
    else ([], st, false)
  | REvent.reasoningSummaryDone summary text delta =>
    if keep_reasoning_summary then
      match firstTruthy [summary, text, delta] with
      | some v => ([], { st with reasoning_summary := v }, false)
      | none => ([], st, false)
    else ([], st, false)
  | REvent.reasoningSummaryOther summary text =>
    if keep_reasoning_summary then
      match firstTruthy [summary, text] with
      | some v => ([], { st with reasoning_summary := v }, false)
      | none => ([], st, false)
    else ([], st, false)
  | REvent.reasoningOther => ([], st, false)
  | REvent.created response =>
    match response.bind (·.model) with
    | some m => if m ≠ "" then ([], { st with model := m }, false)
                else ([], st, false)
    | none => ([], st, false)
  | REvent.outputItemAdded item item_id =>
    let it := item.getD {}
    if it.itype = some "reasoning" then
      if keep_reasoning_summary then
        match firstTruthy [it.summary, it.text] with
        | some v => ([], { st with reasoning_summary := v }, false)
        | none => ([], st, false)
      else ([], st, false)
    else if it.itype = some "function_call" ∨
            it.itype = some "custom_tool_call" then
      let iid := strOr it.id (strOr item_id "")
      let tc : _ToolCallState :=
        { item_id := iid,
          name := strOr it.name "",
          call_id := (firstTruthy [it.call_id, it.id]).getD iid }
      ([], { st with tool_calls := pySet st.tool_calls iid tc,
                     tool_queue := st.tool_queue ++ [iid] }, false)
    else ([], st, false)
  | REvent.outputTextDelta delta =>
    let (o1, st1) := _ensure_message_started st
    let d := delta.getD ""
    if d = "" then (o1, st1, false)
    else
      match st1.active_block with
      | some (ActiveTag.tool _) =>
        (o1, { st1 with pending_text := st1.pending_text ++ [d] }, false)
      | _ =>
        let (o2, st2) := _ensure_text_block st1
        (o1 ++ o2 ++
          [AEvent.content_block_delta st2.active_index (DeltaKind.text_delta d)],
         st2, false)
  | REvent.outputTextDone => ([], st, false)
  | REvent.refusalDelta delta =>
    -- Represent refusal as text: same body as `response.output_text.delta`.
    let (o1, st1) := _ensure_message_started st
    let d := delta.getD ""
    if d = "" then (o1, st1, false)
    else
      match st1.active_block with
      | some (ActiveTag.tool _) =>
        (o1, { st1 with pending_text := st1.pending_text ++ [d] }, false)
      | _ =>
        let (o2, st2) := _ensure_text_block st1
        (o1 ++ o2 ++
          [AEvent.content_block_delta st2.active_index (DeltaKind.text_delta d)],
         st2, false)
  | REvent.fnArgsDelta item_id delta =>
    let iid := strOr item_id ""
    match pyGet st.tool_calls iid with
    | none => ([], st, false)
    | some tc0 =>
      let delta_str := delta.getD ""
      let tcU := { tc0 with partial_json := tc0.partial_json ++ delta_str }
      let st1 := { st with tool_calls := pySet st.tool_calls iid tcU }
      let (o1, st2) := _ensure_message_started st1
      let (o2, st3) := _ensure_tool_block st2 iid false
      if st3.active_block = some (ActiveTag.tool iid) ∧ delta.isSome then
        match pyGet st3.tool_calls iid with
        | none => (o1 ++ o2, st3, false)  -- unreachable: the record was set
        | some tc =>
          let buffered_len := tc.partial_json.length - delta_str.length
          let (oPre, emitted1) :=
            if tc.emitted_chars < buffered_len then
              let pref := pySlice tc.partial_json tc.emitted_chars buffered_len
              if pref ≠ "" then
                ([AEvent.content_block_delta st3.active_index
                    (DeltaKind.input_json_delta pref)], buffered_len)
              else ([], tc.emitted_chars)
            else ([], tc.emitted_chars)
          let oDelta := [AEvent.content_block_delta st3.active_index
            (DeltaKind.input_json_delta delta_str)]
          let tcU := { tc with emitted_chars := emitted1 + delta_str.length }
          let st4 := { st3 with tool_calls := pySet st3.tool_calls iid tcU }
          (o1 ++ o2 ++ oPre ++ oDelta, st4, false)
      else (o1 ++ o2, st3, false)
  | REvent.fnArgsDone item_id arguments =>
    let iid := strOr item_id ""
    match pyGet st.tool_calls iid with
    | none => ([], st, false)
    | some tc0 =>
      let tcU := { tc0 with done := true }
      let st1 := { st with tool_calls := pySet st.tool_calls iid tcU }
      let (o1, st2) := _ensure_message_started st1
      let (o2, st3) := _ensure_tool_block st2 iid true
      match arguments with
      | none => (o1 ++ o2, st3, false)
      | some a =>
        let st4 :=
          match pyGet st3.tool_calls iid with
          | some tc =>
            if tc.partial_json = "" then
              let tcU := { tc with partial_json := a }
              { st3 with tool_calls := pySet st3.tool_calls iid tcU }
            else st3
          | none => st3
        match pyGet st4.tool_calls iid with
        | none => (o1 ++ o2, st4, false)  -- unreachable: the record was set
        | some tc =>
          if st4.active_block = some (ActiveTag.tool iid) ∧
              tc.emitted_chars < tc.partial_json.length then
            let suffix := pyDrop tc.partial_json tc.emitted_chars
            if suffix ≠ "" then
              (o1 ++ o2 ++ [AEvent.content_block_delta st4.active_index
                 (DeltaKind.input_json_delta suffix)],
               let tcU := { tc with emitted_chars := tc.partial_json.length }
               { st4 with tool_calls := pySet st4.tool_calls iid tcU }, false)
            else (o1 ++ o2, st4, false)
          else (o1 ++ o2, st4, false)
  | REvent.customInputDelta item_id delta =>
    let iid := strOr item_id ""
    match pyGet st.tool_calls iid with
    | none => ([], st, false)
    | some tc =>
      let tcU := { tc with partial_json := tc.partial_json ++ delta.getD "" }
      ([], { st with tool_calls := pySet st.tool_calls iid tcU }, false)
  | REvent.customInputDone item_id input =>
    let iid := strOr item_id ""
    match pyGet st.tool_calls iid with
    | none => ([], st, false)
    | some tc0 =>
      let raw := match input with
        | none => tc0.partial_json
        | some r => r
      let tc1 := { tc0 with done := true,
                            partial_json := jsonDumpsInputWrap raw }
      let st1 := { st with tool_calls := pySet st.tool_calls iid tc1 }
      let (o1, st2) := _ensure_message_started st1
      let (o2, st3) := _ensure_tool_block st2 iid true
      let pj := match pyGet st3.tool_calls iid with
        | some tc => tc.partial_json
        | none => tc1.partial_json
      (o1 ++ o2 ++ [AEvent.content_block_delta st3.active_index
         (DeltaKind.input_json_delta pj)], st3, false)
  | REvent.outputItemDone item =>
    let it := item.getD {}
    if it.itype = some "message" then
      let (o, st1) := _close_active_block st
      (o, st1, false)
    else if it.itype = some "function_call" ∨
            it.itype = some "custom_tool_call" then
      let iid := strOr it.id ""
      let (o1, st1) := _ensure_message_started st
      let (o2, st2) := _ensure_tool_block st1 iid true
      let (o3, st3) := _close_active_block st2
      if st3.pending_text ≠ [] then
        let (o4, st4) := _ensure_text_block st3
        let deltas := st4.pending_text.map (fun c =>
          AEvent.content_block_delta st4.active_index (DeltaKind.text_delta c))
        (o1 ++ o2 ++ o3 ++ o4 ++ deltas,
         { st4 with pending_text := [] }, false)
      else (o1 ++ o2 ++ o3, st3, false)
    else ([], st, false)
  | REvent.terminal _ response =>
    let resp := response.getD {}
    let st1 := { st with response_usage := resp.usage }
    let st2 :=
      if keep_reasoning_summary ∧ st1.reasoning_summary = "" then
        match resp.reasoning_summary with
        | some s =>
          if s.trim ≠ "" then { st1 with reasoning_summary := s } else st1
        | none => st1
      else st1
    let st3 :=
      match resp.incomplete_details with
      | some inc =>
        if inc.reason = some "max_tokens" then
          { st2 with stop_reason := some "max_tokens" }
        else st2
      | none => st2
    let st4 :=
      match resp.output with
      | some l =>
        match l.getLast? with
        | some lastItem =>
          if lastItem.itype = some "function_call" ∨
             lastItem.itype = some "custom_tool_call" then
            { st3 with stop_reason := stopOr st3.stop_reason "tool_use" }
          else st3
        | none => st3
      | none => st3
    let st5 := { st4 with stop_reason := stopOr st4.stop_reason "end_turn" }
    _terminal_emit keep_reasoning_summary st5
  | REvent.otherEvent => ([], st, false)

/-- The best-effort closure after the event loop, when the stream ended
without a terminal event. -/
def _end_of_stream (keep_reasoning_summary : Bool) (st : _StreamState) :
    List AEvent :=
  if st.started then
    let (o1, st1) := _close_active_block st
    let (o2, st2) :=
      if keep_reasoning_summary ∧ st1.reasoning_summary ≠ "" ∧
          st1.reasoning_emitted = false then
        let (o, s) := _emit_thinking_block st1 st1.reasoning_summary
        (o, { s with reasoning_emitted := true })
      else ([], st1)
    o1 ++ o2 ++
      [AEvent.message_delta (stopOr st2.stop_reason "end_turn") none,
       AEvent.message_stop]
  else []

/-- The event loop of `iter_anthropic_events`: process events until the list
is exhausted or a terminal event halts the generator. -/
def _run (keep_reasoning_summary : Bool) :
    _StreamState → List REvent → List AEvent
  | st, [] => _end_of_stream keep_reasoning_summary st
  | st, ev :: rest =>
    match _step keep_reasoning_summary st ev with
    | (o, st', halt) =>
      if halt then o else o ++ _run keep_reasoning_summary st' rest

/-- `iter_anthropic_events`.  The single source of nondeterminism of the
Python function, `uuid.uuid4().hex` (drawn when `message_id` is falsy), is
modelled by the explicit argument `uuid4_hex`. -/
def iter_anthropic_events (openai_events : List REvent) (model : String)
    (message_id : Option String) (uuid4_hex : String)
    (keep_reasoning_summary : Bool) : List AEvent :=
  _run keep_reasoning_summary
    { message_id := strOr message_id ("msg_" ++ uuid4_hex), model := model }
    openai_events

/-! ## The SSE framer `iter_openai_sse_json_events`

`json.loads` is a collaborator (the Python standard library); it is modelled
by an abstract `loads : String → Option (PyJson α)` where `none` is a parse
failure, `PyJson.dict` a JSON mapping and `PyJson.nondict` any other JSON
value. -/

/-- The result of a successful `json.loads`: a mapping or anything else. -/
inductive PyJson (α : Type)
  | dict (d : α)
  | nondict
  deriving DecidableEq, Repr

/-- Python `raw.rstrip("\n")`. -/
def pyRstripNl (s : String) : String :=
  String.mk (s.data.reverse.dropWhile (· = '\n')).reverse

/-- Python whitespace for `str.strip` / `str.lstrip` (space, tab, LF, VT,
FF, CR). -/
def pyIsSpace (c : Char) : Bool :=
  c = ' ' || c = '\t' || c = '\n' || c = '\r' ||
  c = Char.ofNat 11 || c = Char.ofNat 12

/-- Python `s.strip()`. -/
def pyStrip (s : String) : String :=
  String.mk (((s.data.dropWhile pyIsSpace).reverse.dropWhile pyIsSpace).reverse)

/-- `line.startswith("data:")` together with
`line[len("data:"):].lstrip()`: the payload of a `data:` line, or `none`
when the line has no `data:` prefix. -/
def sseDataLinePayload (line : String) : Option String :=
  if line.data.take 5 = "data:".data then
    some (String.mk ((line.data.drop 5).dropWhile pyIsSpace))
  else none

/-- The trailing-buffer flush of `iter_openai_sse_json_events`, run when the
line sequence is exhausted. -/
def _sse_flush {α : Type} (loads : String → Option (PyJson α))
    (data_buf : List String) : List α :=
  if data_buf = [] then []
  else
    let payload := pyStrip (String.intercalate "\n" data_buf)
    if payload ≠ "" ∧ payload ≠ "[DONE]" then
      match loads payload with
      | some (PyJson.dict d) => [d]
      | _ => []
    else []

/-- The line loop of `iter_openai_sse_json_events`, with the current
`data_buf` made explicit. -/
def _sse_loop {α : Type} (loads : String → Option (PyJson α)) :
    List String → List String → List α
  | data_buf, [] => _sse_flush loads data_buf
  | data_buf, raw :: rest =>
    let line := pyRstripNl raw
    if line = "" then
      if data_buf = [] then _sse_loop loads data_buf rest
      else
        let payload := pyStrip (String.intercalate "\n" data_buf)
        if payload = "[DONE]" then _sse_loop loads [] rest
        else
          match loads payload with
          | some (PyJson.dict d) => d :: _sse_loop loads [] rest
          | _ => _sse_loop loads [] rest
    else
      match sseDataLinePayload line with
      | some p => _sse_loop loads (data_buf ++ [p]) rest
      | none => _sse_loop loads data_buf rest

/-- `iter_openai_sse_json_events`. -/
def iter_openai_sse_json_events {α : Type}
    (loads : String → Option (PyJson α)) (lines : List String) : List α :=
  _sse_loop loads [] lines

/-- Specification-side framing (for the refinement statement of the SSE
claim): the sequence of event payloads — `data:` lines accumulated and a
blank line terminating each event, the remaining buffer framed at end of
input — before the `[DONE]`/JSON-mapping filtering is applied. -/
def sseFramePayloadsSpecLoop : List String → List String → List String
  | data_buf, [] => if data_buf = [] then []
      else [pyStrip (String.intercalate "\n" data_buf)]
  | data_buf, raw :: rest =>
    let line := pyRstripNl raw
    if line = "" then
      if data_buf = [] then sseFramePayloadsSpecLoop data_buf rest
      else pyStrip (String.intercalate "\n" data_buf) ::
        sseFramePayloadsSpecLoop [] rest
    else
      match sseDataLinePayload line with
      | some p => sseFramePayloadsSpecLoop (data_buf ++ [p]) rest
      | none => sseFramePayloadsSpecLoop data_buf rest

/-- Specification-side framing, from the start of the line sequence. -/
def sseFramePayloadsSpec (lines : List String) : List String :=
  sseFramePayloadsSpecLoop [] lines

/-- Specification-side per-payload yield: `[DONE]` is dropped, payloads that
fail to parse are skipped, only mappings are yielded. -/
def sseYieldSpec {α : Type} (loads : String → Option (PyJson α))
    (payload : String) : List α :=
  if payload = "[DONE]" then []
  else
    match loads payload with
    | some (PyJson.dict d) => [d]
    | _ => []

/-! ## The model-map resolver (`server.py`) -/

/-- A model-map value as loaded from YAML: a string, a mapping, or any other
YAML scalar/sequence (the code only distinguishes these three shapes). -/
inductive MVal
  | vstr (s : String)
  | vobj (fields : List (String × MVal))
  | vnum (n : Int)
  | vbool (b : Bool)
  | vnull

/-- `fnmatch.fnmatchcase` restricted to patterns made of literal characters
and the `*` / `?` wildcards (the shell-glob subset named by the spec;
character classes `[...]` are not modelled).  Implemented with explicit fuel
so that it reduces by kernel computation; each recursive call shrinks
`pattern.length + s.length`. -/
def globMatchFuel : Nat → List Char → List Char → Bool
  | 0, _, _ => false
  | _ + 1, [], s => s.isEmpty
  | fuel + 1, p :: ps, s =>
    if p = '*' then
      globMatchFuel fuel ps s ||
        (match s with
         | [] => false
         | _ :: s' => globMatchFuel fuel (p :: ps) s')
    else
      match s with
      | [] => false
      | c :: s' => (p = '?' || p = c) && globMatchFuel fuel ps s'

/-- `fnmatch.fnmatchcase(name, pat)` over `*` / `?` patterns. -/
def fnmatchcase (name : String) (pat : String) : Bool :=
  globMatchFuel (pat.length + name.length + 1) pat.data name.data

/-- `len(k.replace("*", "").replace("?", ""))`. -/
def nonWildCount (k : String) : Nat :=
  (k.data.filter (fun c => ¬(c = '*' ∨ c = '?'))).length

/-- Python tuple comparison `score > best_score` on `(non_wild, len)`. -/
def scoreGt (a b : Nat × Nat) : Bool :=
  b.1 < a.1 || (a.1 = b.1 && b.2 < a.2)

/-- The wildcard-key test of the resolver loop: a non-empty string key other
than `"*"` that contains `*` or `?`. -/
def isWildcardKey (k : String) : Bool :=
  ¬(k = "" ∨ k = "*") && (k.data.contains '*' || k.data.contains '?')

/-- The best-wildcard loop of `_map_model_and_extras`: fold over the keys,
keeping the first key attaining the strictly greatest
`(non-wildcard count, length)` score among those that match; `none` plays
the role of the `(-1, -1)` sentinel. -/
def _best_wildcard (model : String) :
    List String → Option (String × Nat × Nat) → Option (String × Nat × Nat)
  | [], best => best
  | k :: rest, best =>
    if isWildcardKey k ∧ fnmatchcase model k then
      let score := (nonWildCount k, k.length)
      let better :=
        match best with
        | none => true
        | some (_, bs) => scoreGt score bs
      _best_wildcard model rest (if better then some (k, score) else best)
    else _best_wildcard model rest best

/-- `_normalize_model_map_value`. -/
def _normalize_model_map_value (requested_model : String) (value : MVal) :
    String × List (String × MVal) :=
  match value with
  | MVal.vstr s =>
    -- `isinstance(value, str) and value`: the empty string falls through.
    if s ≠ "" then (s, [])
    else (requested_model, [])
  | MVal.vobj fields =>
    let model_str :=
      match pyGet fields "model" with
      | some (MVal.vstr m) => if m ≠ "" then m else requested_model
      | _ => requested_model
    (model_str, fields.filter (fun p => p.1 ≠ "model"))
  | _ => (requested_model, [])

/-- `_map_model_and_extras`, with the process-wide model map passed
explicitly (`_get_model_map()` is a collaborator reading a cached file). -/
def _map_model_and_extras (model : Option String)
    (mapping : List (String × MVal)) :
    Option String × List (String × MVal) :=
  match model with
  | none => (none, [])
  | some m =>
    if m = "" then (none, [])
    else if pyHasKey mapping m then
      match pyGet mapping m with
      | some v =>
        let (r, e) := _normalize_model_map_value m v
        (some r, e)
      | none => (some m, [])
    else
      match _best_wildcard m (mapping.map Prod.fst) none with
      | some (k, _) =>
        match pyGet mapping k with
        | some v =>
          let (r, e) := _normalize_model_map_value m v
          (some r, e)
        | none => (some m, [])
      | none =>
        if pyHasKey mapping "*" then
          match pyGet mapping "*" with
          | some v =>
            let (r, e) := _normalize_model_map_value m v
            (some r, e)
          | none => (some m, [])
        else (some m, [])

/-! ## Scalar parameter clauses of `convert_anthropic_to_openai_request` -/

/-- A Python/JSON value as found in an Anthropic request payload. -/
inductive PyVal
  | pnull
  | pbool (b : Bool)
  | pint (n : Int)
  | pstr (s : String)
  | plist (xs : List PyVal)
  | pdict (fields : List (String × PyVal))

/-- `isinstance(v, int)` — in Python this includes `bool`. -/
def isPyInt : PyVal → Bool
  | PyVal.pint _ => true
  | PyVal.pbool _ => true
  | _ => false

/-- The scalar keys that `convert_anthropic_to_openai_request` writes into
the Responses request (`none` = key absent from the output). -/
structure ScalarParams where
  max_output_tokens : Option PyVal := none
  temperature : Option PyVal := none
  top_p : Option PyVal := none
  stream : Option Bool := none

/-- The scalar-parameter clauses of `convert_anthropic_to_openai_request`
(`anthropic_to_openai.py`, the `max_tokens` / `temperature` / `top_p` /
`stream` handling): these are the only statements of the function that write
the four output keys below, and they read nothing but the corresponding
payload keys, so they are embedded as a standalone projection.  -/
def convert_request_scalars (payload : List (String × PyVal)) : ScalarParams :=
  let o : ScalarParams := {}
  -- `if isinstance(max_tokens, int): out["max_output_tokens"] = max_tokens`
  let o :=
    match pyGet payload "max_tokens" with
    | some v => if isPyInt v then { o with max_output_tokens := some v } else o
    | none => o
  -- `if "temperature" in payload: out["temperature"] = payload.get(...)`
  let o :=
    if pyHasKey payload "temperature" then
      { o with temperature := pyGet payload "temperature" }
    else o
  -- `if "top_p" in payload: out["top_p"] = payload.get("top_p")`
  let o :=
    if pyHasKey payload "top_p" then
      { o with top_p := pyGet payload "top_p" }
    else o
  -- `if isinstance(stream, bool): out["stream"] = stream`
  let o :=
    match pyGet payload "stream" with
    | some (PyVal.pbool b) => { o with stream := some b }
    | _ => o
  o

/-! ## Observation functions on event streams (used to state the claims) -/

/-- Is this event a `message_start`? -/
def isMsgStart : AEvent → Bool
  | AEvent.message_start _ _ => true
  | _ => false

/-- Is this event a `message_delta`? -/
def isMDelta : AEvent → Bool
  | AEvent.message_delta _ _ => true
  | _ => false

/-- Is this event a `message_stop`? -/
def isMStop : AEvent → Bool
  | AEvent.message_stop => true
  | _ => false

/-- The payloads of the `text_delta` events of a stream, in order. -/
def textDeltas (out : List AEvent) : List String :=
  out.filterMap (fun e =>
    match e with
    | AEvent.content_block_delta _ (DeltaKind.text_delta s) => some s
    | _ => none)

/-- The payloads of the `input_json_delta` events carrying block index `i`,
in order. -/
def jsonDeltasAt (out : List AEvent) (i : Option Nat) : List String :=
  out.filterMap (fun e =>
    match e with
    | AEvent.content_block_delta j (DeltaKind.input_json_delta p) =>
      if j = i then some p else none
    | _ => none)

/-- All `input_json_delta` payloads of a stream, whatever their index. -/
def jsonDeltasAll (out : List AEvent) : List String :=
  out.filterMap (fun e =>
    match e with
    | AEvent.content_block_delta _ (DeltaKind.input_json_delta p) => some p
    | _ => none)

/-- The payloads of the upstream `response.function_call_arguments.delta`
events addressed to tool item `t`. -/
def fnDeltaPayloadsFor (t : String) (evs : List REvent) : List String :=
  evs.filterMap (fun e =>
    match e with
    | REvent.fnArgsDelta iid (some d) => if strOr iid "" = t then some d else none
    | _ => none)

/-! ## Protocol-ordered upstream schemas (used for the amended claims) -/

/-- One upstream function tool: its item id, name, call id, argument deltas,
and the `arguments` string of its `.done` event. -/
structure ToolSpec where
  id : String
  name : String
  call_id : String
  deltas : List String
  arguments : Option String

/-- The `output_item.added` item of a function tool. -/
def fcAddedItem (t : ToolSpec) : ItemF :=
  { itype := some "function_call", id := some t.id,
    call_id := some t.call_id, name := some t.name }

/-- The events of one function tool in the standard upstream order:
`output_item.added`, its argument deltas, `function_call_arguments.done`,
`output_item.done`. -/
def toolSegment (t : ToolSpec) : List REvent :=
  REvent.outputItemAdded (some (fcAddedItem t)) none ::
    t.deltas.map (fun d => REvent.fnArgsDelta (some t.id) (some d)) ++
    [REvent.fnArgsDone (some t.id) t.arguments,
     REvent.outputItemDone (some (fcAddedItem t))]

/-- A protocol-ordered upstream stream: the tool segments in order, then a
terminal `response.completed`. -/
def toolProtocolEvents (ts : List ToolSpec) (resp : Option RespF) :
    List REvent :=
  (ts.map toolSegment).flatten ++ [REvent.terminal TermKind.completed resp]

/-- The tool-input JSON that the Anthropic side should reconstruct for one
tool: the concatenation of its upstream deltas when non-empty, otherwise the
`arguments` string of its `.done` event (the code adopts `arguments` exactly
when `partial_json` is still empty). -/
def expectedToolJson (t : ToolSpec) : String :=
  if String.join t.deltas = "" then (t.arguments.getD "") else String.join t.deltas

/-- Left components of an interleaving (used for the tool-argument deltas of
the text-preservation schema). -/
def sumInls (xs : List (String ⊕ String)) : List String :=
  xs.filterMap (fun e =>
    match e with
    | Sum.inl d => some d
    | _ => none)

/-- Right components of an interleaving (the text deltas arriving while the
tool block is active). -/
def sumInrs (xs : List (String ⊕ String)) : List String :=
  xs.filterMap (fun e =>
    match e with
    | Sum.inr x => some x
    | _ => none)

/-- Upstream schema for text preservation around one tool: text `t1s`, the
tool announcement and a first argument delta `d0` (opening the tool block),
an arbitrary interleaving `mid` of further argument deltas and text deltas
(all of the latter arrive while the tool block is active), the tool's
`.done` and `output_item.done`, text `t3s`, then a terminal event. -/
def textAroundToolEvents (t1s : List String) (tool : ToolSpec) (d0 : String)
    (mid : List (String ⊕ String)) (t3s : List String)
    (resp : Option RespF) : List REvent :=
  t1s.map (fun x => REvent.outputTextDelta (some x)) ++
    (REvent.outputItemAdded (some (fcAddedItem tool)) none ::
     REvent.fnArgsDelta (some tool.id) (some d0) ::
      mid.map (fun e =>
        match e with
        | Sum.inl d => REvent.fnArgsDelta (some tool.id) (some d)
        | Sum.inr x => REvent.outputTextDelta (some x))) ++
    [REvent.fnArgsDone (some tool.id) tool.arguments,
     REvent.outputItemDone (some (fcAddedItem tool))] ++
    t3s.map (fun x => REvent.outputTextDelta (some x)) ++
    [REvent.terminal TermKind.completed resp]

/-! ## Concrete inputs for the counterexamples and code-bug evaluations -/

/-- A custom tool item (for the concrete failing inputs). -/
def ctItem (id : String) (cid : String) (nm : String) : ItemF :=
  { itype := some "custom_tool_call", id := some id,
    call_id := some cid, name := some nm }

/-- Failing input for block bracketing: two custom tool calls are announced
and `custom_tool_call_input.done` arrives for the second (non-head) one. -/
def bracketingFailingInput : List REvent :=
  [REvent.outputItemAdded (some (ctItem "ct1" "cc1" "alpha")) none,
   REvent.outputItemAdded (some (ctItem "ct2" "cc2" "beta")) none,
   REvent.customInputDone (some "ct2") (some "x")]

/-- Failing input for the custom-tool single-delta claim: one custom tool,
one input delta, then `custom_tool_call_input.done`. -/
def customDoneFailingInput : List REvent :=
  [REvent.outputItemAdded (some (ctItem "ct1" "cc1" "alpha")) none,
   REvent.customInputDelta (some "ct1") (some "x"),
   REvent.customInputDone (some "ct1") none]

/-- A function tool item with explicit fields (for concrete inputs). -/
def fcItemC (id : String) (cid : String) (nm : String) : ItemF :=
  { itype := some "function_call", id := some id,
    call_id := some cid, name := some nm }

/-- Counterexample input for tool-JSON faithfulness: a delta for the
second (non-head) tool is buffered and the stream ends without ever opening
that tool's block. -/
def toolJsonCounterInput : List REvent :=
  [REvent.outputItemAdded (some (fcItemC "fc1" "c1" "a")) none,
   REvent.outputItemAdded (some (fcItemC "fc2" "c2" "b")) none,
   REvent.fnArgsDelta (some "fc2") (some "x")]

/-- Counterexample input for text preservation: text arriving while a tool
block is active is still pending when the terminal event closes the block,
and is dropped. -/
def pendingTextCounterInput : List REvent :=
  [REvent.outputItemAdded (some (fcItemC "fc1" "c1" "a")) none,
   REvent.fnArgsDelta (some "fc1") (some "\x7b"),
   REvent.outputTextDelta (some "B"),
   REvent.terminal TermKind.completed (some { output := some [] })]

/-- The model map of the spec's wildcard example. -/
def exampleModelMap : List (String × MVal) :=
  [("claude-*-4-5",
    MVal.vobj [("model", MVal.vstr "gpt-5.2-codex"),
               ("reasoning", MVal.vobj [("effort", MVal.vstr "low")])]),
   ("*", MVal.vstr "gpt-4o-mini")]

/-- Is this event a `content_block_start`? -/
def isBlockStart : AEvent → Bool
  | AEvent.content_block_start _ _ => true
  | _ => false

/-- Is this event a `content_block_stop`? -/
def isBlockStop : AEvent → Bool
  | AEvent.content_block_stop _ => true
  | _ => false

/-- Is this event a `content_block_delta`? -/
def isBlockDelta : AEvent → Bool
  | AEvent.content_block_delta _ _ => true
  | _ => false

/-- The `(non-wildcard character count, pattern length)` specificity score of
a model-map pattern. -/
def scoreOf (k : String) : Nat × Nat :=
  (nonWildCount k, k.length)


/-- A concrete `json.loads` stand-in used to evaluate the SSE framer: only
the literal `"{}"` parses, to a mapping. -/
def sseLoadsExample : String → Option (PyJson String) :=
  fun s =>
    if s = "" then none
    else if s = "\x7b\x7d" then some (PyJson.dict s)
    else some PyJson.nondict


/-- No `message_delta` and no `message_stop` occurs in the chunk. -/
def NoTermEv (o : List AEvent) : Prop :=
  ∀ e ∈ o, isMDelta e = false ∧ isMStop e = false

/-- No `message_start` occurs in the chunk. -/
def NoStartEv (o : List AEvent) : Prop :=
  ∀ e ∈ o, isMsgStart e = false

/-- How a chunk of emitted events relates to the `started` flag: once
started, no further `message_start` is emitted; before that, a chunk is
either empty (still not started) or begins with the unique `message_start`. -/
def StartShape (started : Bool) (o : List AEvent) (started' : Bool) : Prop :=
  if started = true then NoStartEv o ∧ started' = true
  else
    (o = [] ∧ started' = false) ∨
      (∃ i m rr, o = AEvent.message_start i m :: rr ∧ NoStartEv rr ∧
        started' = true)


/-- The tool-call record registered by `output_item.added` for a
`ToolSpec` (fields as computed by the source's `or` chains). -/
def registeredTc (t : ToolSpec) : _ToolCallState :=
  { item_id := t.id, name := t.name,
    call_id := (firstTruthy [some t.call_id, some t.id]).getD t.id }

/-- The extra `input_json_delta` payloads emitted at
`function_call_arguments.done`: when the accumulated deltas concatenate to
the empty string the code adopts the `arguments` string and flushes it (when
non-empty); otherwise nothing is left to flush. -/
def doneFlushPayloads (t : ToolSpec) : List String :=
  if String.join t.deltas = "" then
    match t.arguments with
    | some a => if a ≠ "" then [a] else []
    | none => []
  else []

/-- The Anthropic events produced while processing one protocol-ordered tool
segment whose block gets index `j` (`message_start` first when the message
was not yet started). -/
def toolSegOut (started : Bool) (midStr mdl : String) (j : Nat)
    (t : ToolSpec) : List AEvent :=
  (if started then [] else [AEvent.message_start midStr mdl]) ++
    [AEvent.content_block_start (some j)
       (BlockKind.tool_use (registeredTc t).call_id (registeredTc t).name),
     AEvent.content_block_delta (some j) (DeltaKind.input_json_delta "")] ++
    t.deltas.map (fun d =>
      AEvent.content_block_delta (some j) (DeltaKind.input_json_delta d)) ++
    (doneFlushPayloads t).map (fun a =>
      AEvent.content_block_delta (some j) (DeltaKind.input_json_delta a)) ++
    [AEvent.content_block_stop (some j)]

/-- The events of a sequence of tool segments starting at block index `j`. -/
def toolSegsOut (started : Bool) (midStr mdl : String) (j : Nat) :
    List ToolSpec → List AEvent
  | [] => []
  | t :: rest =>
    toolSegOut started midStr mdl j t ++
      toolSegsOut true midStr mdl (j + 1) rest

/-- The final tool-call record after a protocol-ordered segment. -/
def finalTc (t : ToolSpec) : _ToolCallState :=
  { registeredTc t with
      partial_json := expectedToolJson t,
      emitted_chars := (expectedToolJson t).length,
      done := true }


/-- Append an argument delta to a tool-call record, tracking the emitted
count (the state change of a streamed `function_call_arguments.delta`). -/
def tcAppend (tc : _ToolCallState) (d : String) : _ToolCallState :=
  { tc with partial_json := tc.partial_json ++ d, emitted_chars := tc.emitted_chars + d.length }


/-- The extra `input_json_delta` payloads flushed by the
`function_call_arguments.done` branch, given the accumulated `partial_json`
and the `arguments` value of the event. -/
def doneEmitP (pj : String) (args : Option String) : List String :=
  match args with
  | some a => if pj = "" ∧ a ≠ "" then [a] else []
  | none => []

/-- The tool-call record update of the `function_call_arguments.done`
branch: mark the call done, adopt the `arguments` string when no argument
deltas accumulated, and account the characters flushed to the block. -/
def doneAdopt (tc : _ToolCallState) (args : Option String) : _ToolCallState :=
  match args with
  | none => { tc with done := true }
  | some a =>
    if tc.partial_json = "" then
      if a ≠ "" then
        { tc with done := true, partial_json := a,
                  emitted_chars := a.length }
      else { tc with done := true, partial_json := a }
    else { tc with done := true }

/-- Concrete tools for evaluating the tool-JSON reconstruction theorem:
one streamed in two deltas (whose `.done` `arguments` is ignored), one with
no deltas (whose `arguments` is adopted). -/
def c2WitnessTools : List ToolSpec :=
  [{ id := "fc1", name := "alpha", call_id := "call_1",
     deltas := ["\x7b\"x\":", "1\x7d"], arguments := some "ignored" },
   { id := "fc2", name := "beta", call_id := "call_2",
     deltas := [], arguments := some "\x7b\"y\":2\x7d" }]

/-- Concrete tool for evaluating the text-preservation theorem. -/
def c4WitnessTool : ToolSpec :=
  { id := "fc9", name := "lookup", call_id := "call_9",
    deltas := [], arguments := some "\x7b\"q\":1\x7d" }

/-- A concrete interleaving while the tool block is active: one more
argument delta, then a text delta that must be buffered. -/
def c4WitnessMid : List (String ⊕ String) :=
  [Sum.inl "1\x7d", Sum.inr "world"]

/-! ## Theorems -/

/-- `pyHasKey` agrees with definedness of `pyGet` (Python `k in d` vs
`d.get(k) is not None`, for dicts without `None` values). -/
theorem pyHasKey_eq_isSome {β : Type} (xs : List (String × β)) (k : String) :
    pyHasKey xs k = (pyGet xs k).isSome := by
  induction xs with
  | nil => rfl
  | cons p rest ih =>
    obtain ⟨k', v⟩ := p
    by_cases h : k' = k <;> simp [pyHasKey, pyGet, h, ih]

/-- C1: block bracketing fails on the code.  On the failing input — two
custom tool calls announced, then `custom_tool_call_input.done` for the
second (non-head) one — the stream contains a `content_block_delta` with
index `null` although no `content_block_start` is ever emitted, so the
claimed bracketing (every delta inside a start/stop pair with matching
index) is violated.  This evaluates the code at the failing input. -/
theorem c1_block_bracketing_failure_eval :
    iter_anthropic_events bracketingFailingInput "m" (some "mid") "u" false =
      [AEvent.message_start "mid" "m",
       AEvent.content_block_delta none
         (DeltaKind.input_json_delta "\x7b\"input\": \"x\"\x7d"),
       AEvent.message_delta (some "end_turn") none,
       AEvent.message_stop] ∧
    (iter_anthropic_events bracketingFailingInput "m" (some "mid") "u"
        false).countP isBlockStart = 0 := by
  exact ⟨rfl, rfl⟩

/-- C3: the `custom_tool_call_input.done` branch does wrap the accumulated
raw input as `json.dumps({"input": raw})` and opens the tool block, but it
emits the wrapped object TWICE — once from the buffered flush inside
`_ensure_tool_block(emit_buffered=True)` and once from the branch's own
unconditional yield — not "exactly one `input_json_delta`" as claimed.
This evaluates the code at the failing input (one custom tool, one input
delta `"x"`, then `.done`). -/
theorem c3_custom_done_double_emission_eval :
    iter_anthropic_events customDoneFailingInput "m" (some "mid") "u" false =
      [AEvent.message_start "mid" "m",
       AEvent.content_block_start (some 0) (BlockKind.tool_use "cc1" "alpha"),
       AEvent.content_block_delta (some 0) (DeltaKind.input_json_delta ""),
       AEvent.content_block_delta (some 0)
         (DeltaKind.input_json_delta "\x7b\"input\": \"x\"\x7d"),
       AEvent.content_block_delta (some 0)
         (DeltaKind.input_json_delta "\x7b\"input\": \"x\"\x7d"),
       AEvent.content_block_stop (some 0),
       AEvent.message_delta (some "end_turn") none,
       AEvent.message_stop] ∧
    jsonDeltasAt
        (iter_anthropic_events customDoneFailingInput "m" (some "mid") "u"
          false) (some 0) =
      ["", jsonDumpsInputWrap "x", jsonDumpsInputWrap "x"] := by
  exact ⟨rfl, rfl⟩

/-- C2 (counterexample): as stated, tool-JSON faithfulness fails.  On this
input the tool `fc2` is announced and receives the upstream argument delta
`"x"`, but the stream ends while `fc2` is not the queue head: no
`input_json_delta` is ever emitted (for any block), so no concatenation of
emitted `partial_json` fields equals `"x"`. -/
theorem c2_tool_json_counterexample :
    String.join (fnDeltaPayloadsFor "fc2" toolJsonCounterInput) = "x" ∧
    jsonDeltasAll
      (iter_anthropic_events toolJsonCounterInput "m" (some "mid") "u" false)
      = [] ∧
    iter_anthropic_events toolJsonCounterInput "m" (some "mid") "u" false =
      [AEvent.message_start "mid" "m",
       AEvent.message_delta (some "end_turn") none,
       AEvent.message_stop] := by
  exact ⟨rfl, rfl, rfl⟩

/-- C4 (counterexample): as stated, text preservation fails.  Here `T1 = []`,
`T2 = ["B"]` (the delta `"B"` arrives while the tool block is active) and
`T3 = []`; the tool block is closed by the terminal event rather than by an
`output_item.done`, the pending text is dropped, and the concatenation of
emitted `text_delta`s is `""`, not `"B"`. -/
theorem c4_text_preservation_counterexample :
    iter_anthropic_events pendingTextCounterInput "m" (some "mid") "u" false =
      [AEvent.message_start "mid" "m",
       AEvent.content_block_start (some 0) (BlockKind.tool_use "c1" "a"),
       AEvent.content_block_delta (some 0) (DeltaKind.input_json_delta ""),
       AEvent.content_block_delta (some 0) (DeltaKind.input_json_delta "\x7b"),
       AEvent.content_block_stop (some 0),
       AEvent.message_delta (some "end_turn") none,
       AEvent.message_stop] ∧
    textDeltas
      (iter_anthropic_events pendingTextCounterInput "m" (some "mid") "u"
        false) = [] := by
  exact ⟨rfl, rfl⟩

/-- C9 (counterexample): with the non-`None` but empty `message_id = ""`,
the Python `message_id or f"msg_{uuid4().hex}"` still draws the fresh uuid
(the empty string is falsy), so two runs differing only in the drawn uuid
produce different `message_start` events — the claim's "identical event
sequences for any fixed non-None message_id" is false at `message_id = ""`. -/
theorem c9_determinism_counterexample :
    iter_anthropic_events [REvent.outputTextDelta (some "x")] "m" (some "")
        "a" false ≠
      iter_anthropic_events [REvent.outputTextDelta (some "x")] "m" (some "")
        "b" false := by
  decide

/-- C9 (amended): the streaming transform is deterministic for any fixed
NON-EMPTY `message_id`: the output does not depend on the drawn uuid, which
is consulted only when `message_id` is falsy (`None` or `""`). -/
theorem c9_determinism_fixed_id (evs : List REvent) (mdl : String)
    (mid : String) (u1 u2 : String) (keep : Bool) (h : mid ≠ "") :
    iter_anthropic_events evs mdl (some mid) u1 keep =
      iter_anthropic_events evs mdl (some mid) u2 keep := by
  unfold iter_anthropic_events
  simp [strOr, h]

/-- Witness for `c9_determinism_fixed_id` at a concrete input. -/
theorem c9_determinism_fixed_id_witness :
    ("mid" : String) ≠ "" ∧
    iter_anthropic_events [REvent.outputTextDelta (some "x")] "m" (some "mid")
        "a" false =
      iter_anthropic_events [REvent.outputTextDelta (some "x")] "m"
        (some "mid") "b" false :=
  ⟨by decide, c9_determinism_fixed_id _ _ _ _ _ _ (by decide)⟩

/-- C7 (counterexample): the claim says a `temperature` whose value is not a
number is omitted from the output; the code copies the key whenever it is
present, with no type check — here a string value is passed through. -/
theorem c7_scalar_type_check_counterexample :
    (convert_request_scalars [("temperature", PyVal.pstr "hot")]).temperature
        = some (PyVal.pstr "hot") ∧
    (convert_request_scalars [("temperature", PyVal.pstr "hot")]).temperature
        ≠ none := by
  refine ⟨rfl, ?_⟩
  intro h
  rw [show (convert_request_scalars
        [("temperature", PyVal.pstr "hot")]).temperature =
      some (PyVal.pstr "hot") from rfl] at h
  exact Option.noConfusion h

/-- C7 (amended): `temperature` and `top_p` are copied to the Responses
request exactly when the key is present in the payload, whatever the type of
its value; `stream` is copied exactly when present with a boolean value. -/
theorem c7_scalar_pass_through (payload : List (String × PyVal)) :
    (convert_request_scalars payload).temperature =
        pyGet payload "temperature" ∧
    (convert_request_scalars payload).top_p = pyGet payload "top_p" ∧
    (convert_request_scalars payload).stream =
      (match pyGet payload "stream" with
       | some (PyVal.pbool b) => some b
       | _ => none) := by
  unfold convert_request_scalars
  rw [pyHasKey_eq_isSome, pyHasKey_eq_isSome]
  rcases hM : pyGet payload "max_tokens" with _ | vM <;>
    rcases hT : pyGet payload "temperature" with _ | vT <;>
    rcases hP : pyGet payload "top_p" with _ | vP <;>
    rcases hS : pyGet payload "stream" with _ | vS <;>
    first
      | (cases vS <;> simp [hT, hP, hS] <;>
          by_cases hI : isPyInt vM = true <;> simp [hI])
      | (simp [hT, hP, hS] <;>
          by_cases hI : isPyInt vM = true <;> simp [hI])

theorem scoreGt_asymm {a b : Nat × Nat} (h : scoreGt a b = true) :
    scoreGt b a = false := by
  rcases a with ⟨a1, a2⟩; rcases b with ⟨b1, b2⟩
  simp [scoreGt] at *
  omega

theorem scoreGt_irrefl (a : Nat × Nat) : scoreGt a a = false := by
  rcases a with ⟨a1, a2⟩
  simp [scoreGt]

theorem scoreGt_neg_trans {a b c : Nat × Nat} (h1 : scoreGt a b = false)
    (h2 : scoreGt b c = false) : scoreGt a c = false := by
  rcases a with ⟨a1, a2⟩; rcases b with ⟨b1, b2⟩; rcases c with ⟨c1, c2⟩
  simp [scoreGt] at *
  omega

theorem bw_some_mem (m : String) (keys : List String)
    (acc : Option (String × Nat × Nat)) (k : String) (s : Nat × Nat)
    (hacc : ∀ a0 s0, acc = some (a0, s0) → s0 = scoreOf a0)
    (h : _best_wildcard m keys acc = some (k, s)) :
    s = scoreOf k ∧
      (acc = some (k, s) ∨
        (k ∈ keys ∧ isWildcardKey k = true ∧ fnmatchcase m k = true)) := by
  induction keys generalizing acc with
  | nil =>
    simp [_best_wildcard] at h
    exact ⟨hacc k s h, Or.inl h⟩
  | cons k0 rest ih =>
    by_cases hc : isWildcardKey k0 = true ∧ fnmatchcase m k0 = true
    · simp only [_best_wildcard, hc.1, hc.2, and_self, if_true] at h
      set better := (match acc with
        | none => true
        | some (_, bs) => scoreGt (nonWildCount k0, k0.length) bs) with hbet
      by_cases hb : better = true
      · rw [if_pos hb] at h
        have := ih (some (k0, (nonWildCount k0, k0.length)))
          (by intro a0 s0 he; cases he; rfl) h
        rcases this with ⟨hs, hmem | hmem⟩
        · cases hmem
          exact ⟨hs, Or.inr ⟨List.mem_cons_self _ _, hc.1, hc.2⟩⟩
        · exact ⟨hs, Or.inr ⟨List.mem_cons_of_mem _ hmem.1, hmem.2⟩⟩
      · rw [if_neg hb] at h
        have := ih acc hacc h
        rcases this with ⟨hs, hmem | hmem⟩
        · exact ⟨hs, Or.inl hmem⟩
        · exact ⟨hs, Or.inr ⟨List.mem_cons_of_mem _ hmem.1, hmem.2⟩⟩
    · have hstep : _best_wildcard m (k0 :: rest) acc = _best_wildcard m rest acc := by
        simp only [_best_wildcard]
        rw [if_neg hc]
      rw [hstep] at h
      have := ih acc hacc h
      rcases this with ⟨hs, hmem | hmem⟩
      · exact ⟨hs, Or.inl hmem⟩
      · exact ⟨hs, Or.inr ⟨List.mem_cons_of_mem _ hmem.1, hmem.2⟩⟩

theorem bw_some_max (m : String) (keys : List String)
    (acc : Option (String × Nat × Nat)) (k : String) (s : Nat × Nat)
    (h : _best_wildcard m keys acc = some (k, s)) :
    (∀ k' ∈ keys, isWildcardKey k' = true → fnmatchcase m k' = true →
        scoreGt (scoreOf k') s = false) ∧
      (∀ a0 s0, acc = some (a0, s0) → scoreGt s0 s = false) := by
  induction keys generalizing acc with
  | nil =>
    simp only [_best_wildcard] at h
    refine ⟨by simp, ?_⟩
    intro a0 s0 he
    rw [he] at h
    injection h with hp
    injection hp with h1 h2
    rw [h2]
    exact scoreGt_irrefl s
  | cons k0 rest ih =>
    by_cases hc : isWildcardKey k0 = true ∧ fnmatchcase m k0 = true
    · simp only [_best_wildcard, hc.1, hc.2, and_self, if_true] at h
      set better := (match acc with
        | none => true
        | some (_, bs) => scoreGt (nonWildCount k0, k0.length) bs) with hbet
      by_cases hb : better = true
      · rw [if_pos hb] at h
        have := ih (some (k0, (nonWildCount k0, k0.length))) h
        have hk0 : scoreGt (scoreOf k0) s = false := this.2 k0 _ rfl
        refine ⟨?_, ?_⟩
        · intro k' hk' hw hm
          rcases List.mem_cons.mp hk' with rfl | hk'
          · exact hk0
          · exact this.1 k' hk' hw hm
        · intro a0 s0 he
          rw [he] at hbet
          have hgt : scoreGt (nonWildCount k0, k0.length) s0 = true := by
            rw [hbet] at hb; exact hb
          have h1 : scoreGt s0 (scoreOf k0) = false := scoreGt_asymm hgt
          exact scoreGt_neg_trans h1 hk0
      · rw [if_neg hb] at h
        have := ih acc h
        rcases hacc : acc with _ | ⟨a0, s0⟩
        · rw [hacc] at hbet
          simp at hbet
          rw [hbet] at hb
          exact absurd rfl hb
        · have hle : scoreGt s0 s = false := this.2 a0 s0 hacc
          have hk0le : scoreGt (scoreOf k0) s0 = false := by
            rw [hacc] at hbet
            simp only [hbet] at hb
            simpa [scoreOf] using (Bool.not_eq_true _).mp hb
          refine ⟨?_, ?_⟩
          · intro k' hk' hw hm
            rcases List.mem_cons.mp hk' with rfl | hk'
            · exact scoreGt_neg_trans hk0le hle
            · exact this.1 k' hk' hw hm
          · intro a1 s1 he
            injection he with hp
            injection hp with h1 h2
            rw [← h2]
            exact hle
    · have hstep : _best_wildcard m (k0 :: rest) acc = _best_wildcard m rest acc := by
        simp only [_best_wildcard]
        rw [if_neg hc]
      rw [hstep] at h
      have := ih acc h
      refine ⟨?_, this.2⟩
      intro k' hk' hw hm
      rcases List.mem_cons.mp hk' with rfl | hk'
      · exact absurd ⟨hw, hm⟩ hc
      · exact this.1 k' hk' hw hm

theorem bw_none (m : String) (keys : List String)
    (acc : Option (String × Nat × Nat))
    (h : _best_wildcard m keys acc = none) :
    acc = none ∧ ∀ k' ∈ keys, isWildcardKey k' = true →
      fnmatchcase m k' = true → False := by
  induction keys generalizing acc with
  | nil =>
    simp only [_best_wildcard] at h
    exact ⟨h, by simp⟩
  | cons k0 rest ih =>
    by_cases hc : isWildcardKey k0 = true ∧ fnmatchcase m k0 = true
    · simp only [_best_wildcard, hc.1, hc.2, and_self, if_true] at h
      set better := (match acc with
        | none => true
        | some (_, bs) => scoreGt (nonWildCount k0, k0.length) bs) with hbet
      by_cases hb : better = true
      · rw [if_pos hb] at h
        have := ih _ h
        exact absurd this.1 (by simp)
      · rw [if_neg hb] at h
        have := ih _ h
        rw [this.1] at hbet
        simp at hbet
        rw [hbet] at hb
        exact absurd rfl hb
    · have hstep : _best_wildcard m (k0 :: rest) acc = _best_wildcard m rest acc := by
        simp only [_best_wildcard]
        rw [if_neg hc]
      rw [hstep] at h
      have := ih _ h
      refine ⟨this.1, ?_⟩
      intro k' hk' hw hm
      rcases List.mem_cons.mp hk' with rfl | hk'
      · exact hc ⟨hw, hm⟩
      · exact this.2 k' hk' hw hm

theorem bw_complete (m : String) (keys : List String)
    (hne : ∀ k' ∈ keys, isWildcardKey k' = true →
      fnmatchcase m k' = true → False) :
    _best_wildcard m keys none = none := by
  rcases hr : _best_wildcard m keys none with _ | ⟨k, s⟩
  · rfl
  · exfalso
    have := bw_some_mem m keys none k s
      (by intro a0 s0 he; exact Option.noConfusion he) hr
    rcases this.2 with h | h
    · exact Option.noConfusion h
    · exact hne k h.1 h.2.1 h.2.2

theorem pyGet_isSome_of_mem {β : Type} {xs : List (String × β)} {k : String}
    (h : k ∈ xs.map Prod.fst) : ∃ v, pyGet xs k = some v := by
  induction xs with
  | nil => simp at h
  | cons p rest ih =>
    obtain ⟨k', v⟩ := p
    by_cases he : k' = k
    · subst he
      exact ⟨v, by simp [pyGet]⟩
    · simp only [List.map, List.mem_cons] at h
      rcases h with h | h
      · exact absurd h.symm he
      · simpa [pyGet, he] using ih h

/-- C6: model-map resolution follows the claimed precedence.  (1) An exact
key match wins; (2) otherwise some matching wildcard pattern of maximal
`(non-wildcard count, length)` score wins (ties broken by map order); (3)
otherwise the catch-all `"*"` entry applies; string values yield the
replacement with empty extras; dict values with a non-empty string `model`
field yield that model and the remaining keys as extras; and the spec's
concrete example resolves as claimed. -/
theorem c6_model_map_resolution :
    (∀ (m : String) (mapping : List (String × MVal)) (v : MVal),
        m ≠ "" → pyGet mapping m = some v →
        _map_model_and_extras (some m) mapping =
          (some (_normalize_model_map_value m v).1,
           (_normalize_model_map_value m v).2)) ∧
    (∀ (m : String) (mapping : List (String × MVal)),
        m ≠ "" → pyHasKey mapping m = false →
        (∃ k ∈ mapping.map Prod.fst, isWildcardKey k = true ∧
          fnmatchcase m k = true) →
        ∃ k v, k ∈ mapping.map Prod.fst ∧ isWildcardKey k = true ∧
          fnmatchcase m k = true ∧
          (∀ k' ∈ mapping.map Prod.fst, isWildcardKey k' = true →
            fnmatchcase m k' = true →
            scoreGt (scoreOf k') (scoreOf k) = false) ∧
          pyGet mapping k = some v ∧
          _map_model_and_extras (some m) mapping =
            (some (_normalize_model_map_value m v).1,
             (_normalize_model_map_value m v).2)) ∧
    (∀ (m : String) (mapping : List (String × MVal)) (v : MVal),
        m ≠ "" → pyHasKey mapping m = false →
        (∀ k ∈ mapping.map Prod.fst, isWildcardKey k = true →
          fnmatchcase m k = true → False) →
        pyGet mapping "*" = some v →
        _map_model_and_extras (some m) mapping =
          (some (_normalize_model_map_value m v).1,
           (_normalize_model_map_value m v).2)) ∧
    (∀ (r s : String), s ≠ "" →
        _normalize_model_map_value r (MVal.vstr s) = (s, [])) ∧
    (∀ (r m' : String) (fs : List (String × MVal)),
        pyGet fs "model" = some (MVal.vstr m') → m' ≠ "" →
        _normalize_model_map_value r (MVal.vobj fs) =
          (m', fs.filter (fun p => p.1 ≠ "model"))) ∧
    _map_model_and_extras (some "claude-sonnet-4-5") exampleModelMap =
      (some "gpt-5.2-codex",
       [("reasoning", MVal.vobj [("effort", MVal.vstr "low")])]) := by
  refine ⟨?_, ?_, ?_, ?_, ?_, ?_⟩
  · intro m mapping v hm hv
    have hk : pyHasKey mapping m = true := by
      rw [pyHasKey_eq_isSome, hv]; rfl
    rcases hnorm : _normalize_model_map_value m v with ⟨r, e⟩
    simp [_map_model_and_extras, hm, hk, hv, hnorm]
  · intro m mapping hm hnk hex
    rcases hr : _best_wildcard m (mapping.map Prod.fst) none with _ | ⟨k, s⟩
    · exfalso
      obtain ⟨k, hkmem, hw, hmt⟩ := hex
      exact (bw_none _ _ _ hr).2 k hkmem hw hmt
    · have hmem := bw_some_mem m _ none k s
        (fun a0 s0 he => Option.noConfusion he) hr
      rcases hmem with ⟨hs, hacc | ⟨hkm, hw, hmt⟩⟩
      · exact absurd hacc (by simp)
      have hmax := (bw_some_max m _ none k s hr).1
      obtain ⟨v, hv⟩ := pyGet_isSome_of_mem hkm
      refine ⟨k, v, hkm, hw, hmt, ?_, hv, ?_⟩
      · intro k' h1 h2 h3
        rw [← hs]
        exact hmax k' h1 h2 h3
      · rcases hnorm : _normalize_model_map_value m v with ⟨r, e⟩
        simp [_map_model_and_extras, hm, hnk, hr, hv, hnorm]
  · intro m mapping v hm hnk hnw hv
    have hbw := bw_complete m (mapping.map Prod.fst) hnw
    have hk : pyHasKey mapping "*" = true := by
      rw [pyHasKey_eq_isSome, hv]; rfl
    rcases hnorm : _normalize_model_map_value m v with ⟨r, e⟩
    simp [_map_model_and_extras, hm, hnk, hbw, hk, hv, hnorm]
  · intro r s hs
    simp [_normalize_model_map_value, hs]
  · intro r m' fs hv hm'
    simp [_normalize_model_map_value, hv, hm']
  · rfl

/-- Witness for `c6_model_map_resolution` at a concrete exact-match input. -/
theorem c6_model_map_resolution_witness :
    _map_model_and_extras (some "claude-opus-3-0")
        [("claude-opus-3-0", MVal.vstr "gpt-4.1")] = (some "gpt-4.1", []) := by
  have h := c6_model_map_resolution.1 "claude-opus-3-0"
    [("claude-opus-3-0", MVal.vstr "gpt-4.1")] (MVal.vstr "gpt-4.1")
    (by decide) (by rfl)
  exact h.trans (by rfl)

/-- C10: model-map resolution is total and defaults to identity: `None` and
the empty model resolve to `(None, {})`; a non-empty model with no exact
key, no matching wildcard and no `"*"` entry resolves to itself with empty
extras. -/
theorem c10_model_map_identity_default :
    (∀ mapping : List (String × MVal),
        _map_model_and_extras none mapping = (none, [])) ∧
    (∀ mapping : List (String × MVal),
        _map_model_and_extras (some "") mapping = (none, [])) ∧
    (∀ (m : String) (mapping : List (String × MVal)), m ≠ "" →
        pyHasKey mapping m = false →
        (∀ k ∈ mapping.map Prod.fst, isWildcardKey k = true →
          fnmatchcase m k = true → False) →
        pyHasKey mapping "*" = false →
        _map_model_and_extras (some m) mapping = (some m, [])) := by
  refine ⟨fun mapping => rfl, fun mapping => rfl, ?_⟩
  intro m mapping hm hnk hnw hstar
  simp [_map_model_and_extras, hm, hnk, bw_complete m _ hnw, hstar]

/-- Witness for `c10_model_map_identity_default` at a concrete input. -/
theorem c10_model_map_identity_default_witness :
    _map_model_and_extras (some "claude-3") [("gpt-4", MVal.vstr "x")] =
      (some "claude-3", []) :=
  c10_model_map_identity_default.2.2 "claude-3" [("gpt-4", MVal.vstr "x")]
    (by decide) (by rfl) (by decide) (by rfl)

/-- The SSE line loop agrees, for every buffer, with spec-side framing
followed by per-payload filtering (given that the empty payload never
parses, as with `json.loads`). -/
theorem sse_loop_spec {α : Type} (loads : String → Option (PyJson α))
    (h0 : loads "" = none) (lines : List String) (buf : List String) :
    _sse_loop loads buf lines =
      ((sseFramePayloadsSpecLoop buf lines).map (sseYieldSpec loads)).flatten := by
  induction lines generalizing buf with
  | nil =>
    by_cases hb : buf = []
    · simp [_sse_loop, _sse_flush, sseFramePayloadsSpecLoop, hb]
    · simp only [_sse_loop, _sse_flush, sseFramePayloadsSpecLoop, hb,
        if_neg hb, if_false]
      set payload := pyStrip (String.intercalate "\n" buf) with hp
      by_cases hd : payload = "[DONE]"
      · simp [sseYieldSpec, hd]
      · by_cases he : payload = ""
        · simp [sseYieldSpec, hd, he, h0]
        · rcases hL : loads payload with _ | j
          · simp [_sse_flush, sseYieldSpec, hd, he, hL]
          · rcases j <;> simp [_sse_flush, sseYieldSpec, hd, he, hL]
  | cons raw rest ih =>
    by_cases hl : pyRstripNl raw = ""
    · by_cases hb : buf = []
      · simp [_sse_loop, sseFramePayloadsSpecLoop, hl, hb, ih]
      · simp only [_sse_loop, sseFramePayloadsSpecLoop, hl, if_pos rfl,
          hb, if_neg hb, if_false]
        set payload := pyStrip (String.intercalate "\n" buf) with hp
        by_cases hd : payload = "[DONE]"
        · simp [sseYieldSpec, hd, ih]
        · rcases hL : loads payload with _ | j
          · simp [sseYieldSpec, hd, hL, ih]
          · rcases j <;> simp [sseYieldSpec, hd, hL, ih]
    · simp only [_sse_loop, sseFramePayloadsSpecLoop, hl, if_neg hl]
      rcases sseDataLinePayload (pyRstripNl raw) with _ | p
      · simp [ih]
      · simp [ih]

/-- C8: the framer yields exactly the JSON mappings of the framed payloads:
`data:`-prefixed lines are accumulated and a blank line terminates each
event, a `[DONE]` payload is dropped, a payload that fails to parse (or
parses to a non-mapping) is skipped with the stream continuing, and when the
lines end without a trailing blank line the remaining buffer is framed and
yielded under the same rules. -/
theorem c8_sse_framer_refinement {α : Type} (loads : String → Option (PyJson α))
    (lines : List String) (h0 : loads "" = none) :
    iter_openai_sse_json_events loads lines =
      ((sseFramePayloadsSpec lines).map (sseYieldSpec loads)).flatten :=
  sse_loop_spec loads h0 lines []


/-- Witness for `c8_sse_framer_refinement` on a concrete line sequence
(exercising `[DONE]`, a malformed payload, and the trailing flush). -/
theorem c8_sse_framer_refinement_witness :
    iter_openai_sse_json_events sseLoadsExample
        ["data: \x7b\x7d", "", "data: [DONE]", "", "data: xyz", "", "data: \x7b\x7d"] =
      ["\x7b\x7d", "\x7b\x7d"] := by
  have h := c8_sse_framer_refinement sseLoadsExample
    ["data: \x7b\x7d", "", "data: [DONE]", "", "data: xyz", "", "data: \x7b\x7d"] rfl
  exact h.trans (by rfl)

theorem NoTermEv.concat {o1 o2 : List AEvent} (h1 : NoTermEv o1)
    (h2 : NoTermEv o2) : NoTermEv (o1 ++ o2) := by
  intro e he
  rcases List.mem_append.mp he with h | h
  · exact h1 e h
  · exact h2 e h

theorem NoStartEv.combine {o1 o2 : List AEvent} (h1 : NoStartEv o1)
    (h2 : NoStartEv o2) : NoStartEv (o1 ++ o2) := by
  intro e he
  rcases List.mem_append.mp he with h | h
  · exact h1 e h
  · exact h2 e h

@[simp] theorem NoTermEv_nil : NoTermEv [] := by
  intro e he
  exact absurd he (List.not_mem_nil e)

@[simp] theorem NoTermEv_cons {e : AEvent} {l : List AEvent} :
    NoTermEv (e :: l) ↔
      (isMDelta e = false ∧ isMStop e = false) ∧ NoTermEv l := by
  constructor
  · intro h
    exact ⟨h e (List.mem_cons_self _ _), fun x hx => h x (List.mem_cons_of_mem _ hx)⟩
  · rintro ⟨h1, h2⟩ x hx
    rcases List.mem_cons.mp hx with rfl | hx
    · exact h1
    · exact h2 x hx

@[simp] theorem NoTermEv_append {a b : List AEvent} :
    NoTermEv (a ++ b) ↔ NoTermEv a ∧ NoTermEv b := by
  constructor
  · intro h
    exact ⟨fun x hx => h x (List.mem_append.mpr (Or.inl hx)),
           fun x hx => h x (List.mem_append.mpr (Or.inr hx))⟩
  · rintro ⟨h1, h2⟩ x hx
    rcases List.mem_append.mp hx with hx | hx
    · exact h1 x hx
    · exact h2 x hx

@[simp] theorem NoStartEv_nil : NoStartEv [] := by
  intro e he
  exact absurd he (List.not_mem_nil e)

@[simp] theorem NoStartEv_cons {e : AEvent} {l : List AEvent} :
    NoStartEv (e :: l) ↔ isMsgStart e = false ∧ NoStartEv l := by
  constructor
  · intro h
    exact ⟨h e (List.mem_cons_self _ _), fun x hx => h x (List.mem_cons_of_mem _ hx)⟩
  · rintro ⟨h1, h2⟩ x hx
    rcases List.mem_cons.mp hx with rfl | hx
    · exact h1
    · exact h2 x hx

@[simp] theorem NoStartEv_append {a b : List AEvent} :
    NoStartEv (a ++ b) ↔ NoStartEv a ∧ NoStartEv b := by
  constructor
  · intro h
    exact ⟨fun x hx => h x (List.mem_append.mpr (Or.inl hx)),
           fun x hx => h x (List.mem_append.mpr (Or.inr hx))⟩
  · rintro ⟨h1, h2⟩ x hx
    rcases List.mem_append.mp hx with hx | hx
    · exact h1 x hx
    · exact h2 x hx

theorem StartShape.comp {s1 s2 s3 : Bool} {o1 o2 : List AEvent}
    (h1 : StartShape s1 o1 s2) (h2 : StartShape s2 o2 s3) :
    StartShape s1 (o1 ++ o2) s3 := by
  cases s1 with
  | true =>
    simp only [StartShape, if_true] at h1 ⊢
    rcases h1 with ⟨hn1, rfl⟩
    simp only [StartShape, if_true] at h2
    exact ⟨hn1.combine h2.1, h2.2⟩
  | false =>
    simp only [StartShape, Bool.false_eq_true, if_false] at h1 ⊢
    rcases h1 with ⟨rfl, rfl⟩ | ⟨i, m, rr, rfl, hn, rfl⟩
    · simp only [StartShape, Bool.false_eq_true, if_false] at h2
      simpa using h2
    · simp only [StartShape, if_true] at h2
      refine Or.inr ⟨i, m, rr ++ o2, by simp, hn.combine h2.1, h2.2⟩

theorem StartShape.ofNoStart {s : Bool} {o : List AEvent} (hs : s = true)
    (h : NoStartEv o) : StartShape s o s := by
  subst hs
  simp only [StartShape, if_true, and_true]
  exact h


theorem StartShape.refl_nil (s : Bool) : StartShape s [] s := by
  cases s with
  | true => simp [StartShape, NoStartEv]
  | false => simp [StartShape]

-- `_ensure_message_started` facts
theorem ems_started (st : _StreamState) :
    (_ensure_message_started st).2.started = true := by
  by_cases h : st.started = true <;> simp [_ensure_message_started, h]

theorem ems_active (st : _StreamState) :
    (_ensure_message_started st).2.active_block = st.active_block := by
  by_cases h : st.started = true <;> simp [_ensure_message_started, h]

theorem ems_noterm (st : _StreamState) :
    NoTermEv (_ensure_message_started st).1 := by
  by_cases h : st.started = true <;>
    simp [_ensure_message_started, h, NoTermEv, isMDelta, isMStop]

theorem ems_shape (st : _StreamState) :
    StartShape st.started (_ensure_message_started st).1 true := by
  by_cases h : st.started = true
  · simp [_ensure_message_started, h, StartShape, NoStartEv]
  · rw [Bool.not_eq_true] at h
    rw [h]
    simp only [_ensure_message_started, h, Bool.false_eq_true, if_false,
      StartShape]
    exact Or.inr ⟨st.message_id, st.model, [], rfl, by simp [NoStartEv], trivial⟩


-- `_close_active_block` facts
theorem close_started (st : _StreamState) :
    (_close_active_block st).2.started = st.started := by
  rcases h : st.active_block with _ | b <;>
    simp [_close_active_block, h] <;> split <;> simp

theorem close_active (st : _StreamState) :
    (_close_active_block st).2.active_block = none := by
  rcases h : st.active_block with _ | b <;>
    simp [_close_active_block, h]
  · split <;> simp

theorem close_noterm (st : _StreamState) :
    NoTermEv (_close_active_block st).1 := by
  rcases h : st.active_block with _ | b <;>
    simp [_close_active_block, h, NoTermEv, isMDelta, isMStop]

theorem close_nostart (st : _StreamState) :
    NoStartEv (_close_active_block st).1 := by
  rcases h : st.active_block with _ | b <;>
    simp [_close_active_block, h, NoStartEv, isMsgStart]

theorem close_of_none {st : _StreamState} (h : st.active_block = none) :
    _close_active_block st = ([], st) := by
  simp [_close_active_block, h]

-- `_ensure_text_block` facts
theorem etb_started (st : _StreamState) :
    (_ensure_text_block st).2.started = st.started := by
  by_cases h : st.active_block = some ActiveTag.text
  · simp [_ensure_text_block, h]
  · rcases hcl : _close_active_block st with ⟨o1, st1⟩
    have := close_started st
    rw [hcl] at this
    simp only at this
    simp [_ensure_text_block, h, hcl, this]

theorem etb_noterm (st : _StreamState) :
    NoTermEv (_ensure_text_block st).1 := by
  by_cases h : st.active_block = some ActiveTag.text
  · simp [_ensure_text_block, h, NoTermEv]
  · rcases hcl : _close_active_block st with ⟨o1, st1⟩
    have hc := close_noterm st
    rw [hcl] at hc
    simp only [_ensure_text_block, h, if_false, hcl]
    exact hc.concat (by simp [NoTermEv, isMDelta, isMStop])

theorem etb_nostart (st : _StreamState) :
    NoStartEv (_ensure_text_block st).1 := by
  by_cases h : st.active_block = some ActiveTag.text
  · simp [_ensure_text_block, h, NoStartEv]
  · rcases hcl : _close_active_block st with ⟨o1, st1⟩
    have hc := close_nostart st
    rw [hcl] at hc
    simp only [_ensure_text_block, h, if_false, hcl]
    exact hc.combine (by simp [NoStartEv, isMsgStart])

-- `_ensure_tool_block_open` facts
theorem etbo_started (st : _StreamState) (iid : String) (eb : Bool) :
    (_ensure_tool_block_open st iid eb).2.started = st.started := by
  rcases hg : pyGet st.tool_calls iid with _ | tc
  · simp [_ensure_tool_block_open, hg]
  · rcases hcl : _close_active_block st with ⟨o1, st1⟩
    have := close_started st
    rw [hcl] at this
    simp only at this
    simp only [_ensure_tool_block_open, hg, hcl]
    split
    · split <;> simp [this]
    · simp [this]

theorem etbo_noterm (st : _StreamState) (iid : String) (eb : Bool) :
    NoTermEv (_ensure_tool_block_open st iid eb).1 := by
  rcases hg : pyGet st.tool_calls iid with _ | tc
  · simp [_ensure_tool_block_open, hg, NoTermEv]
  · rcases hcl : _close_active_block st with ⟨o1, st1⟩
    have hc := close_noterm st
    rw [hcl] at hc
    simp only at hc
    simp only [_ensure_tool_block_open, hg, hcl]
    split
    · split <;> simp [hc, isMDelta, isMStop]
    · simp [hc, isMDelta, isMStop]

theorem etbo_nostart (st : _StreamState) (iid : String) (eb : Bool) :
    NoStartEv (_ensure_tool_block_open st iid eb).1 := by
  rcases hg : pyGet st.tool_calls iid with _ | tc
  · simp [_ensure_tool_block_open, hg, NoStartEv]
  · rcases hcl : _close_active_block st with ⟨o1, st1⟩
    have hc := close_nostart st
    rw [hcl] at hc
    simp only at hc
    simp only [_ensure_tool_block_open, hg, hcl]
    split
    · split <;> simp [hc, isMsgStart]
    · simp [hc, isMsgStart]

-- `_ensure_tool_block` facts
theorem etool_started (st : _StreamState) (iid : String) (eb : Bool) :
    (_ensure_tool_block st iid eb).2.started = st.started := by
  by_cases h : st.active_block = some (ActiveTag.tool iid)
  · simp [_ensure_tool_block, h]
  · rcases hq : st.tool_queue with _ | ⟨q0, qr⟩
    · simp [_ensure_tool_block, h, hq, etbo_started]
    · by_cases h0 : q0 = iid <;> simp [_ensure_tool_block, h, hq, h0, etbo_started]

theorem etool_noterm (st : _StreamState) (iid : String) (eb : Bool) :
    NoTermEv (_ensure_tool_block st iid eb).1 := by
  by_cases h : st.active_block = some (ActiveTag.tool iid)
  · simp [_ensure_tool_block, h, NoTermEv]
  · rcases hq : st.tool_queue with _ | ⟨q0, qr⟩
    · simp only [_ensure_tool_block, h, if_false, hq]
      exact etbo_noterm st iid eb
    · by_cases h0 : q0 = iid
      · simp only [_ensure_tool_block, h, if_false, hq, h0, ite_not]
        split
        · exact etbo_noterm st iid eb
        · simp [NoTermEv]
      · simp only [_ensure_tool_block, h, if_false, hq]
        rw [if_pos h0]
        simp [NoTermEv]

theorem etool_nostart (st : _StreamState) (iid : String) (eb : Bool) :
    NoStartEv (_ensure_tool_block st iid eb).1 := by
  by_cases h : st.active_block = some (ActiveTag.tool iid)
  · simp [_ensure_tool_block, h, NoStartEv]
  · rcases hq : st.tool_queue with _ | ⟨q0, qr⟩
    · simp only [_ensure_tool_block, h, if_false, hq]
      exact etbo_nostart st iid eb
    · by_cases h0 : q0 = iid
      · simp only [_ensure_tool_block, h, if_false, hq, h0, ite_not]
        split
        · exact etbo_nostart st iid eb
        · simp [NoStartEv]
      · simp only [_ensure_tool_block, h, if_false, hq]
        rw [if_pos h0]
        simp [NoStartEv]

-- `_emit_thinking_block` facts
theorem think_noterm (st : _StreamState) (s : String) :
    NoTermEv (_emit_thinking_block st s).1 := by
  by_cases ht : s.trim = ""
  · simp [_emit_thinking_block, ht, NoTermEv]
  · rcases hed : _ensure_message_started st with ⟨o1, st1⟩
    rcases hcl : _close_active_block st1 with ⟨o2, st2⟩
    have h1 := ems_noterm st
    rw [hed] at h1
    have h2 := close_noterm st1
    rw [hcl] at h2
    simp only [_emit_thinking_block, ht, if_false, hed, hcl]
    exact (h1.concat h2).concat (by simp [NoTermEv, isMDelta, isMStop])

theorem think_started (st : _StreamState) (s : String) (h : st.started = true) :
    (_emit_thinking_block st s).2.started = true := by
  by_cases ht : s.trim = ""
  · simp [_emit_thinking_block, ht, h]
  · rcases hed : _ensure_message_started st with ⟨o1, st1⟩
    rcases hcl : _close_active_block st1 with ⟨o2, st2⟩
    have h1 := ems_started st
    rw [hed] at h1
    simp only at h1
    have h2 := close_started st1
    rw [hcl] at h2
    simp only at h2
    simp [_emit_thinking_block, ht, hed, hcl, h2, h1]

theorem think_shape (st : _StreamState) (s : String)
    (ha : st.active_block = none) :
    StartShape st.started (_emit_thinking_block st s).1
      (_emit_thinking_block st s).2.started := by
  by_cases ht : s.trim = ""
  · simp only [_emit_thinking_block, ht, if_true]
    exact StartShape.refl_nil st.started
  · rcases hed : _ensure_message_started st with ⟨o1, st1⟩
    have h1 := ems_shape st
    rw [hed] at h1
    have h1s := ems_started st
    rw [hed] at h1s
    have h1a := ems_active st
    rw [hed] at h1a
    have hcl : _close_active_block st1 = ([], st1) :=
      close_of_none (by rw [h1a, ha])
    simp only at h1s
    simp only [_emit_thinking_block, ht, if_false, hed, hcl]
    simp only [List.append_nil]
    rw [h1s]
    refine @StartShape.comp _ true _ _ _ h1 ?_
    exact StartShape.ofNoStart rfl (by simp [NoStartEv, isMsgStart])

theorem StartShape.end_true {s : Bool} {o : List AEvent} {s' : Bool}
    (h : StartShape s o true) (h' : s' = true) : StartShape s o s' := by
  rw [h']
  exact h

theorem StartShape.push {s0 : Bool} {o1 o2 : List AEvent} {s' : Bool}
    (h1 : StartShape s0 o1 true) (h2 : NoStartEv o2) (h3 : s' = true) :
    StartShape s0 (o1 ++ o2) s' :=
  (h1.comp (StartShape.ofNoStart rfl h2)).end_true h3

theorem nostart_map_textdelta (idx : Option Nat) (l : List String) :
    NoStartEv (l.map (fun c =>
      AEvent.content_block_delta idx (DeltaKind.text_delta c))) := by
  intro e he
  rcases List.mem_map.mp he with ⟨c, _, rfl⟩
  rfl

theorem noterm_map_textdelta (idx : Option Nat) (l : List String) :
    NoTermEv (l.map (fun c =>
      AEvent.content_block_delta idx (DeltaKind.text_delta c))) := by
  intro e he
  rcases List.mem_map.mp he with ⟨c, _, rfl⟩
  exact ⟨rfl, rfl⟩

theorem terminal_emit_shape (keep : Bool) (st5 : _StreamState)
    (hre5 : st5.started = false → st5.active_block = none) :
    ∃ p sr u, (_terminal_emit keep st5).1 =
        p ++ [AEvent.message_delta sr u, AEvent.message_stop] ∧
      NoTermEv p ∧ StartShape st5.started p true := by
  rcases hcl : _close_active_block st5 with ⟨o1, st6⟩
  have h6started := close_started st5
  rw [hcl] at h6started
  simp only at h6started
  have h6active := close_active st5
  rw [hcl] at h6active
  simp only at h6active
  have h6noterm := close_noterm st5
  rw [hcl] at h6noterm
  simp only at h6noterm
  have h6nostart := close_nostart st5
  rw [hcl] at h6nostart
  simp only at h6nostart
  have hshape1 : StartShape st5.started o1 st6.started := by
    by_cases hs : st5.started = true
    · have h6s : st6.started = true := by rw [h6started]; exact hs
      simp only [StartShape]
      rw [if_pos hs]
      exact ⟨h6nostart, h6s⟩
    · have hsf : st5.started = false := by simpa using hs
      have hni := close_of_none (hre5 hsf)
      rw [hcl] at hni
      injection hni with e1 e2
      rw [e1, e2]
      exact StartShape.refl_nil st5.started
  simp only [_terminal_emit, hcl]
  split
  · rcases hth : _emit_thinking_block st6 st6.reasoning_summary with ⟨oT, stT⟩
    have hthsh := think_shape st6 st6.reasoning_summary h6active
    rw [hth] at hthsh
    simp only at hthsh
    have hthnt := think_noterm st6 st6.reasoning_summary
    rw [hth] at hthnt
    simp only at hthnt
    rcases hed : _ensure_message_started { stT with reasoning_emitted := true }
      with ⟨o3, st8⟩
    have h3shape := ems_shape { stT with reasoning_emitted := true }
    rw [hed] at h3shape
    simp only at h3shape
    have h3noterm := ems_noterm { stT with reasoning_emitted := true }
    rw [hed] at h3noterm
    simp only at h3noterm
    refine ⟨o1 ++ oT ++ o3, st8.stop_reason,
      st8.response_usage.bind (fun u => u.output_tokens), by simp, ?_, ?_⟩
    · simp [h6noterm, hthnt, h3noterm]
    · exact (hshape1.comp hthsh).comp h3shape
  · rcases hed : _ensure_message_started st6 with ⟨o3, st8⟩
    have h3shape := ems_shape st6
    rw [hed] at h3shape
    simp only at h3shape
    have h3noterm := ems_noterm st6
    rw [hed] at h3noterm
    simp only at h3noterm
    refine ⟨o1 ++ o3, st8.stop_reason,
      st8.response_usage.bind (fun u => u.output_tokens), by simp, ?_, ?_⟩
    · simp [h6noterm, h3noterm]
    · exact hshape1.comp h3shape

set_option maxHeartbeats 1000000

theorem step_shape (keep : Bool) (st : _StreamState) (ev : REvent)
    (hre : st.started = false → st.active_block = none) :
    ((_step keep st ev).2.2 = false →
       NoTermEv (_step keep st ev).1 ∧
       StartShape st.started (_step keep st ev).1
         ((_step keep st ev).2.1).started ∧
       (((_step keep st ev).2.1).started = false →
         ((_step keep st ev).2.1).active_block = none)) ∧
    ((_step keep st ev).2.2 = true →
       ∃ p sr u, (_step keep st ev).1 =
           p ++ [AEvent.message_delta sr u, AEvent.message_stop] ∧
         NoTermEv p ∧ StartShape st.started p true) := by
  cases ev with
  | reasoningSummaryDelta d =>
    simp only [_step]
    repeat' split
    all_goals
      exact ⟨fun _ => ⟨by simp, StartShape.refl_nil st.started, hre⟩, by simp⟩
  | reasoningSummaryDone s t d =>
    simp only [_step]
    repeat' split
    all_goals
      exact ⟨fun _ => ⟨by simp, StartShape.refl_nil st.started, hre⟩, by simp⟩
  | reasoningSummaryOther s t =>
    simp only [_step]
    repeat' split
    all_goals
      exact ⟨fun _ => ⟨by simp, StartShape.refl_nil st.started, hre⟩, by simp⟩
  | reasoningOther =>
    exact ⟨fun _ => ⟨by simp [_step], StartShape.refl_nil st.started, hre⟩,
      by simp [_step]⟩
  | created r =>
    simp only [_step]
    repeat' split
    all_goals
      exact ⟨fun _ => ⟨by simp, StartShape.refl_nil st.started, hre⟩, by simp⟩
  | outputItemAdded item iid =>
    simp only [_step]
    repeat' split
    all_goals
      exact ⟨fun _ => ⟨by simp, StartShape.refl_nil st.started, hre⟩, by simp⟩
  | outputTextDone =>
    exact ⟨fun _ => ⟨by simp [_step], StartShape.refl_nil st.started, hre⟩,
      by simp [_step]⟩
  | customInputDelta iid d =>
    simp only [_step]
    repeat' split
    all_goals
      exact ⟨fun _ => ⟨by simp, StartShape.refl_nil st.started, hre⟩, by simp⟩
  | otherEvent =>
    exact ⟨fun _ => ⟨by simp [_step], StartShape.refl_nil st.started, hre⟩,
      by simp [_step]⟩
  | outputTextDelta d =>
    rcases hed : _ensure_message_started st with ⟨o1, st1⟩
    have h1shape := ems_shape st
    rw [hed] at h1shape
    simp only at h1shape
    have h1started := ems_started st
    rw [hed] at h1started
    simp only at h1started
    have h1noterm := ems_noterm st
    rw [hed] at h1noterm
    simp only at h1noterm
    refine ⟨?_, by
      intro h
      simp only [_step, hed] at h
      split at h
      · simp at h
      · split at h <;> simp at h⟩
    intro _
    simp only [_step, hed]
    split
    · exact ⟨h1noterm, h1shape.end_true h1started, by simp [h1started]⟩
    · split
      · exact ⟨h1noterm, h1shape.end_true h1started, by simp [h1started]⟩
      · rcases het : _ensure_text_block st1 with ⟨o2, st2⟩
        have h2started := etb_started st1
        rw [het] at h2started
        simp only at h2started
        have h2noterm := etb_noterm st1
        rw [het] at h2noterm
        simp only at h2noterm
        have h2nostart := etb_nostart st1
        rw [het] at h2nostart
        simp only at h2nostart
        have hs2 : st2.started = true := by rw [h2started, h1started]
        refine ⟨?_, ?_, by simp [hs2]⟩
        · simp [h1noterm, h2noterm, isMDelta, isMStop]
        · have := @StartShape.push _ _
            (o2 ++ [AEvent.content_block_delta st2.active_index
              (DeltaKind.text_delta (d.getD ""))]) st2.started h1shape
            (by simp [h2nostart, isMsgStart]) hs2
          simpa [List.append_assoc] using this
  | refusalDelta d =>
    rcases hed : _ensure_message_started st with ⟨o1, st1⟩
    have h1shape := ems_shape st
    rw [hed] at h1shape
    simp only at h1shape
    have h1started := ems_started st
    rw [hed] at h1started
    simp only at h1started
    have h1noterm := ems_noterm st
    rw [hed] at h1noterm
    simp only at h1noterm
    refine ⟨?_, by
      intro h
      simp only [_step, hed] at h
      split at h
      · simp at h
      · split at h <;> simp at h⟩
    intro _
    simp only [_step, hed]
    split
    · exact ⟨h1noterm, h1shape.end_true h1started, by simp [h1started]⟩
    · split
      · exact ⟨h1noterm, h1shape.end_true h1started, by simp [h1started]⟩
      · rcases het : _ensure_text_block st1 with ⟨o2, st2⟩
        have h2started := etb_started st1
        rw [het] at h2started
        simp only at h2started
        have h2noterm := etb_noterm st1
        rw [het] at h2noterm
        simp only at h2noterm
        have h2nostart := etb_nostart st1
        rw [het] at h2nostart
        simp only at h2nostart
        have hs2 : st2.started = true := by rw [h2started, h1started]
        refine ⟨?_, ?_, by simp [hs2]⟩
        · simp [h1noterm, h2noterm, isMDelta, isMStop]
        · have := @StartShape.push _ _
            (o2 ++ [AEvent.content_block_delta st2.active_index
              (DeltaKind.text_delta (d.getD ""))]) st2.started h1shape
            (by simp [h2nostart, isMsgStart]) hs2
          simpa [List.append_assoc] using this
  | fnArgsDelta iid d =>
    simp only [_step]
    rcases hg : pyGet st.tool_calls (strOr iid "") with _ | tc0
    · exact ⟨fun _ => ⟨by simp, StartShape.refl_nil st.started, hre⟩, by simp⟩
    · set tcX := { tc0 with partial_json := tc0.partial_json ++ d.getD "" } with htcX
      set stX := { st with tool_calls := pySet st.tool_calls (strOr iid "") tcX } with hstX
      rcases hed : _ensure_message_started stX with ⟨o1, st2⟩
      have h1shape := ems_shape stX
      rw [hed] at h1shape
      simp only at h1shape
      have h1started := ems_started stX
      rw [hed] at h1started
      simp only at h1started
      have h1noterm := ems_noterm stX
      rw [hed] at h1noterm
      simp only at h1noterm
      have hxs : stX.started = st.started := rfl
      rw [hxs] at h1shape
      rcases het : _ensure_tool_block st2 (strOr iid "") false with ⟨o2, st3⟩
      have h2started := etool_started st2 (strOr iid "") false
      rw [het] at h2started
      simp only at h2started
      have h2noterm := etool_noterm st2 (strOr iid "") false
      rw [het] at h2noterm
      simp only at h2noterm
      have h2nostart := etool_nostart st2 (strOr iid "") false
      rw [het] at h2nostart
      simp only at h2nostart
      have hs3 : st3.started = true := by rw [h2started, h1started]
      refine ⟨?_, by
        intro h
        simp only [hed, het] at h
        repeat' split at h
        all_goals simp at h⟩
      intro _
      simp only [hed, het]
      repeat' split
      all_goals
        refine ⟨by simp [h1noterm, h2noterm, isMDelta, isMStop], ?_,
          by simp [hs3]⟩
      all_goals
        simp only [List.append_assoc]
      all_goals
        exact h1shape.push (by simp [h2nostart, isMsgStart]) (by simp [hs3])
  | fnArgsDone iid args =>
    simp only [_step]
    rcases hg : pyGet st.tool_calls (strOr iid "") with _ | tc0
    · exact ⟨fun _ => ⟨by simp, StartShape.refl_nil st.started, hre⟩, by simp⟩
    · set tcX := { tc0 with done := true } with htcX
      set stX := { st with tool_calls := pySet st.tool_calls (strOr iid "") tcX } with hstX
      rcases hed : _ensure_message_started stX with ⟨o1, st2⟩
      have h1shape := ems_shape stX
      rw [hed] at h1shape
      simp only at h1shape
      have h1started := ems_started stX
      rw [hed] at h1started
      simp only at h1started
      have h1noterm := ems_noterm stX
      rw [hed] at h1noterm
      simp only at h1noterm
      have hxs : stX.started = st.started := rfl
      rw [hxs] at h1shape
      rcases het : _ensure_tool_block st2 (strOr iid "") true with ⟨o2, st3⟩
      have h2started := etool_started st2 (strOr iid "") true
      rw [het] at h2started
      simp only at h2started
      have h2noterm := etool_noterm st2 (strOr iid "") true
      rw [het] at h2noterm
      simp only at h2noterm
      have h2nostart := etool_nostart st2 (strOr iid "") true
      rw [het] at h2nostart
      simp only at h2nostart
      have hs3 : st3.started = true := by rw [h2started, h1started]
      refine ⟨?_, by
        intro h
        simp only [hed, het] at h
        repeat' split at h
        all_goals simp at h⟩
      intro _
      simp only [hed, het]
      repeat' split
      all_goals
        refine ⟨by simp [h1noterm, h2noterm, isMDelta, isMStop], ?_,
          by simp [hs3]⟩
      all_goals
        simp only [List.append_assoc]
      all_goals
        exact h1shape.push (by simp [h2nostart, isMsgStart]) (by simp [hs3])
  | customInputDone iid inp =>
    simp only [_step]
    rcases hg : pyGet st.tool_calls (strOr iid "") with _ | tc0
    · exact ⟨fun _ => ⟨by simp, StartShape.refl_nil st.started, hre⟩, by simp⟩
    · rcases inp with _ | rr
      · set tcX := { tc0 with done := true, partial_json := jsonDumpsInputWrap tc0.partial_json } with htcX
        set stX := { st with tool_calls := pySet st.tool_calls (strOr iid "") tcX } with hstX
        rcases hed : _ensure_message_started stX with ⟨o1, st2⟩
        have h1shape := ems_shape stX
        rw [hed] at h1shape
        simp only at h1shape
        have h1started := ems_started stX
        rw [hed] at h1started
        simp only at h1started
        have h1noterm := ems_noterm stX
        rw [hed] at h1noterm
        simp only at h1noterm
        have hxs : stX.started = st.started := rfl
        rw [hxs] at h1shape
        rcases het : _ensure_tool_block st2 (strOr iid "") true with ⟨o2, st3⟩
        have h2started := etool_started st2 (strOr iid "") true
        rw [het] at h2started
        simp only at h2started
        have h2noterm := etool_noterm st2 (strOr iid "") true
        rw [het] at h2noterm
        simp only at h2noterm
        have h2nostart := etool_nostart st2 (strOr iid "") true
        rw [het] at h2nostart
        simp only at h2nostart
        have hs3 : st3.started = true := by rw [h2started, h1started]
        refine ⟨?_, by
          intro h
          simp only [hed, het] at h
          repeat' split at h
          all_goals simp at h⟩
        intro _
        simp only [hed, het]
        repeat' split
        all_goals
          refine ⟨by simp [h1noterm, h2noterm, isMDelta, isMStop], ?_,
            by simp [hs3]⟩
        all_goals
          simp only [List.append_assoc]
        all_goals
          exact h1shape.push (by simp [h2nostart, isMsgStart]) (by simp [hs3])
      · set tcX := { tc0 with done := true, partial_json := jsonDumpsInputWrap rr } with htcX
        set stX := { st with tool_calls := pySet st.tool_calls (strOr iid "") tcX } with hstX
        rcases hed : _ensure_message_started stX with ⟨o1, st2⟩
        have h1shape := ems_shape stX
        rw [hed] at h1shape
        simp only at h1shape
        have h1started := ems_started stX
        rw [hed] at h1started
        simp only at h1started
        have h1noterm := ems_noterm stX
        rw [hed] at h1noterm
        simp only at h1noterm
        have hxs : stX.started = st.started := rfl
        rw [hxs] at h1shape
        rcases het : _ensure_tool_block st2 (strOr iid "") true with ⟨o2, st3⟩
        have h2started := etool_started st2 (strOr iid "") true
        rw [het] at h2started
        simp only at h2started
        have h2noterm := etool_noterm st2 (strOr iid "") true
        rw [het] at h2noterm
        simp only at h2noterm
        have h2nostart := etool_nostart st2 (strOr iid "") true
        rw [het] at h2nostart
        simp only at h2nostart
        have hs3 : st3.started = true := by rw [h2started, h1started]
        refine ⟨?_, by
          intro h
          simp only [hed, het] at h
          repeat' split at h
          all_goals simp at h⟩
        intro _
        simp only [hed, het]
        repeat' split
        all_goals
          refine ⟨by simp [h1noterm, h2noterm, isMDelta, isMStop], ?_,
            by simp [hs3]⟩
        all_goals
          simp only [List.append_assoc]
        all_goals
          exact h1shape.push (by simp [h2nostart, isMsgStart]) (by simp [hs3])
  | outputItemDone item =>
    simp only [_step]
    split
    · -- item type "message": close the active block
      by_cases hs : st.started = true
      · refine ⟨fun _ => ⟨close_noterm st, ?_, fun _ => close_active st⟩,
          by intro h; simp at h⟩
        have hcs : (_close_active_block st).2.started = true := by
          rw [close_started]; exact hs
        simp only [StartShape]
        rw [if_pos hs]
        exact ⟨close_nostart st, hcs⟩
      · have hsf : st.started = false := by simpa using hs
        have hni := close_of_none (hre hsf)
        refine ⟨fun _ => ?_, by intro h; simp at h⟩
        rw [hni]
        exact ⟨by simp, StartShape.refl_nil st.started, hre⟩
    · split
      · -- tool item: ensure started, ensure tool block, close, flush pending
        rcases hed : _ensure_message_started st with ⟨o1, st2⟩
        have h1shape := ems_shape st
        rw [hed] at h1shape
        simp only at h1shape
        have h1started := ems_started st
        rw [hed] at h1started
        simp only at h1started
        have h1noterm := ems_noterm st
        rw [hed] at h1noterm
        simp only at h1noterm
        rcases het : _ensure_tool_block st2
            (strOr (item.getD { }).id "") true with ⟨o2, st3⟩
        have h2started := etool_started st2 (strOr (item.getD { }).id "") true
        rw [het] at h2started
        simp only at h2started
        have h2noterm := etool_noterm st2 (strOr (item.getD { }).id "") true
        rw [het] at h2noterm
        simp only at h2noterm
        have h2nostart := etool_nostart st2 (strOr (item.getD { }).id "") true
        rw [het] at h2nostart
        simp only at h2nostart
        rcases hcl : _close_active_block st3 with ⟨o3, st4⟩
        have h3started := close_started st3
        rw [hcl] at h3started
        simp only at h3started
        have h3noterm := close_noterm st3
        rw [hcl] at h3noterm
        simp only at h3noterm
        have h3nostart := close_nostart st3
        rw [hcl] at h3nostart
        simp only at h3nostart
        have hs4 : st4.started = true := by
          rw [h3started, h2started, h1started]
        rcases hetb : _ensure_text_block st4 with ⟨o4, st5⟩
        have h4started := etb_started st4
        rw [hetb] at h4started
        simp only at h4started
        have h4noterm := etb_noterm st4
        rw [hetb] at h4noterm
        simp only at h4noterm
        have h4nostart := etb_nostart st4
        rw [hetb] at h4nostart
        simp only at h4nostart
        have hs5 : st5.started = true := by rw [h4started, hs4]
        refine ⟨?_, by
          intro h
          simp only [hed, het, hcl, hetb] at h
          repeat' split at h
          all_goals simp at h⟩
        intro _
        simp only [hed, het, hcl, hetb]
        split
        · refine ⟨by simp [h1noterm, h2noterm, h3noterm, h4noterm,
              noterm_map_textdelta, isMDelta, isMStop], ?_, by simp [hs5]⟩
          simp only [List.append_assoc]
          exact h1shape.push
            (by simp [h2nostart, h3nostart, h4nostart, nostart_map_textdelta])
            (by simp [hs5])
        · refine ⟨by simp [h1noterm, h2noterm, h3noterm, isMDelta, isMStop],
            ?_, by simp [hs4]⟩
          simp only [List.append_assoc]
          exact h1shape.push (by simp [h2nostart, h3nostart]) (by simp [hs4])
      · exact ⟨fun _ => ⟨by simp, StartShape.refl_nil st.started, hre⟩, by simp⟩
  | terminal k r =>
    refine ⟨by
      intro h
      rw [show (_step keep st (REvent.terminal k r)).2.2 = true from rfl] at h
      exact absurd h (by simp), ?_⟩
    intro _
    simp only [_step]
    repeat' split
    all_goals exact terminal_emit_shape keep _ hre

theorem run_cons (keep : Bool) (st : _StreamState) (ev : REvent)
    (rest : List REvent) :
    _run keep st (ev :: rest) =
      (if (_step keep st ev).2.2 = true then (_step keep st ev).1
       else (_step keep st ev).1 ++ _run keep (_step keep st ev).2.1 rest) :=
  rfl

theorem run_append_halt (keep : Bool) (k : TermKind) (r : Option RespF)
    (rest : List REvent) :
    ∀ (evs : List REvent) (st : _StreamState),
    _run keep st (evs ++ REvent.terminal k r :: rest) =
      _run keep st (evs ++ [REvent.terminal k r]) := by
  intro evs
  induction evs with
  | nil =>
    intro st
    simp only [List.nil_append]
    rw [run_cons, run_cons]
    rfl
  | cons e evs ih =>
    intro st
    simp only [List.cons_append]
    rw [run_cons, run_cons]
    by_cases h : (_step keep st e).2.2 = true
    · rw [if_pos h, if_pos h]
    · rw [if_neg h, if_neg h, ih]

theorem StartShape.nostart_of_true {o : List AEvent} {s' : Bool}
    (h : StartShape true o s') : NoStartEv o := by
  simp only [StartShape, if_pos rfl] at h
  exact h.1

theorem end_of_stream_shape (keep : Bool) (st : _StreamState)
    (hs : st.started = true) :
    ∃ p sr u, _end_of_stream keep st =
        p ++ [AEvent.message_delta sr u, AEvent.message_stop] ∧
      NoTermEv p ∧ NoStartEv p := by
  rcases hcl : _close_active_block st with ⟨o1, st1⟩
  have h1noterm := close_noterm st
  rw [hcl] at h1noterm
  simp only at h1noterm
  have h1nostart := close_nostart st
  rw [hcl] at h1nostart
  simp only at h1nostart
  have h1started := close_started st
  rw [hcl] at h1started
  simp only at h1started
  have h1active := close_active st
  rw [hcl] at h1active
  simp only at h1active
  simp only [_end_of_stream, hs, if_true, hcl]
  split
  · rcases hth : _emit_thinking_block st1 st1.reasoning_summary with ⟨oT, stT⟩
    have hthsh := think_shape st1 st1.reasoning_summary h1active
    rw [hth] at hthsh
    simp only at hthsh
    have hthnt := think_noterm st1 st1.reasoning_summary
    rw [hth] at hthnt
    simp only at hthnt
    have hs1 : st1.started = true := by rw [h1started]; exact hs
    rw [hs1] at hthsh
    have hthns := hthsh.nostart_of_true
    refine ⟨o1 ++ oT, stopOr stT.stop_reason "end_turn", none, by simp,
      by simp [h1noterm, hthnt], by simp [h1nostart, hthns]⟩
  · refine ⟨o1, stopOr st1.stop_reason "end_turn", none, by simp, h1noterm,
      h1nostart⟩

theorem run_shape (keep : Bool) (evs : List REvent) (st : _StreamState)
    (hre : st.started = false → st.active_block = none) :
    (st.started = true →
      ∃ p sr u, _run keep st evs =
          p ++ [AEvent.message_delta sr u, AEvent.message_stop] ∧
        NoTermEv p ∧ NoStartEv p) ∧
    (st.started = false →
      _run keep st evs = [] ∨
      ∃ i m p sr u, _run keep st evs =
          AEvent.message_start i m ::
            (p ++ [AEvent.message_delta sr u, AEvent.message_stop]) ∧
        NoTermEv p ∧ NoStartEv p) := by
  induction evs generalizing st with
  | nil =>
    constructor
    · intro hs
      exact end_of_stream_shape keep st hs
    · intro hs
      left
      simp [_run, _end_of_stream, hs]
  | cons ev rest ih =>
    have hstep := step_shape keep st ev hre
    by_cases hh : (_step keep st ev).2.2 = true
    · obtain ⟨p, sr, u, heq, hnt, hss⟩ := hstep.2 hh
      rw [run_cons, if_pos hh]
      constructor
      · intro hs
        rw [hs] at hss
        exact ⟨p, sr, u, heq, hnt, hss.nostart_of_true⟩
      · intro hs
        rw [hs] at hss
        simp only [StartShape, Bool.false_eq_true, if_false] at hss
        rcases hss with ⟨rfl, hcontr⟩ | ⟨i, m, rr, hpr, hnr, _⟩
        · exact absurd hcontr (by simp)
        · right
          refine ⟨i, m, rr, sr, u, ?_, ?_, hnr⟩
          · rw [heq, hpr]
            simp
          · rw [hpr] at hnt
            exact (NoTermEv_cons.mp hnt).2
    · have hh' : (_step keep st ev).2.2 = false := by simpa using hh
      obtain ⟨hnt, hss, hre'⟩ := hstep.1 hh'
      rw [run_cons, if_neg hh]
      have ihr := ih (_step keep st ev).2.1 hre'
      by_cases hs : st.started = true
      · rw [hs] at hss
        have hnso := hss.nostart_of_true
        have hst' : ((_step keep st ev).2.1).started = true := by
          simp only [StartShape, if_pos rfl] at hss
          exact hss.2
        obtain ⟨p, sr, u, heq, hp1, hp2⟩ := ihr.1 hst'
        constructor
        · intro _
          refine ⟨(_step keep st ev).1 ++ p, sr, u, ?_,
            by simp [hnt, hp1], by simp [hnso, hp2]⟩
          rw [heq]
          simp
        · intro hcontr
          rw [hs] at hcontr
          exact absurd hcontr (by simp)
      · have hsf : st.started = false := by simpa using hs
        rw [hsf] at hss
        simp only [StartShape, Bool.false_eq_true, if_false] at hss
        constructor
        · intro hcontr
          rw [hsf] at hcontr
          exact absurd hcontr (by simp)
        · intro _
          rcases hss with ⟨ho, hst'⟩ | ⟨i, m, rr, ho, hnr, hst'⟩
          · rw [ho]
            simp only [List.nil_append]
            exact ihr.2 hst'
          · obtain ⟨p, sr, u, heq, hp1, hp2⟩ := ihr.1 hst'
            right
            refine ⟨i, m, rr ++ p, sr, u, ?_, ?_, by simp [hnr, hp2]⟩
            · rw [ho, heq]
              simp
            · rw [ho] at hnt
              have := (NoTermEv_cons.mp hnt).2
              simp [this, hp1]

/-- C5: when anything is emitted at all, the stream is exactly one
`message_start` (the first event, preceding all content events), then
content events only, then exactly one `message_delta` immediately followed
by the final `message_stop`; and a second terminal event (arriving after the
one that produced `message_stop`) yields no output at all. -/
theorem c5_single_terminal :
    (∀ (evs : List REvent) (mdl : String) (mid : Option String) (u : String)
        (keep : Bool),
      iter_anthropic_events evs mdl mid u keep ≠ [] →
      ∃ i m p sr ou,
        iter_anthropic_events evs mdl mid u keep =
          AEvent.message_start i m ::
            (p ++ [AEvent.message_delta sr ou, AEvent.message_stop]) ∧
        ∀ e ∈ p, isMsgStart e = false ∧ isMDelta e = false ∧
          isMStop e = false) ∧
    (∀ (evs : List REvent) (k : TermKind) (r : Option RespF)
        (rest : List REvent) (mdl : String) (mid : Option String) (u : String)
        (keep : Bool),
      iter_anthropic_events (evs ++ REvent.terminal k r :: rest) mdl mid u
          keep =
        iter_anthropic_events (evs ++ [REvent.terminal k r]) mdl mid u keep) := by
  constructor
  · intro evs mdl mid u keep hne
    have h := (run_shape keep evs
      { message_id := strOr mid ("msg_" ++ u), model := mdl }
      (fun _ => rfl)).2 rfl
    rcases h with h | ⟨i, m, p, sr, ou, heq, hnt, hns⟩
    · exact absurd h hne
    · refine ⟨i, m, p, sr, ou, heq, ?_⟩
      intro e he
      exact ⟨hns e he, (hnt e he).1, (hnt e he).2⟩
  · intro evs k r rest mdl mid u keep
    exact run_append_halt keep k r rest evs _

/-- Witness for `c5_single_terminal` at a concrete input. -/
theorem c5_single_terminal_witness :
    iter_anthropic_events [REvent.outputTextDelta (some "x")] "m" (some "mid")
        "u" false ≠ [] ∧
    ∃ i m p sr ou,
      iter_anthropic_events [REvent.outputTextDelta (some "x")] "m"
          (some "mid") "u" false =
        AEvent.message_start i m ::
          (p ++ [AEvent.message_delta sr ou, AEvent.message_stop]) ∧
      ∀ e ∈ p, isMsgStart e = false ∧ isMDelta e = false ∧ isMStop e = false :=
  ⟨by decide,
   c5_single_terminal.1 [REvent.outputTextDelta (some "x")] "m" (some "mid")
     "u" false (by decide)⟩

theorem pyGet_pySet_self {β : Type} (xs : List (String × β)) (k : String)
    (v : β) : pyGet (pySet xs k v) k = some v := by
  induction xs with
  | nil => simp [pySet, pyGet]
  | cons p rest ih =>
    obtain ⟨k', v'⟩ := p
    by_cases h : k' = k <;> simp [pySet, pyGet, h, ih]

theorem pyGet_pySet_other {β : Type} (xs : List (String × β)) (k k' : String)
    (v : β) (h : ¬k = k') : pyGet (pySet xs k v) k' = pyGet xs k' := by
  induction xs with
  | nil => simp [pySet, pyGet, h]
  | cons p rest ih =>
    obtain ⟨k0, v0⟩ := p
    by_cases h0 : k0 = k <;> simp [pySet, pyGet, h0, h, ih]

theorem pySet_pySet {β : Type} (xs : List (String × β)) (k : String)
    (v v' : β) : pySet (pySet xs k v) k v' = pySet xs k v' := by
  induction xs with
  | nil => simp [pySet]
  | cons p rest ih =>
    obtain ⟨k0, v0⟩ := p
    by_cases h0 : k0 = k <;> simp [pySet, h0, ih]

theorem strOr_some_right (s : String) : strOr (some s) "" = s := by
  by_cases h : s = "" <;> simp [strOr, h]

theorem str_empty_append (s : String) : "" ++ s = s := by
  cases s
  rfl

theorem pyDrop_zero (s : String) : pyDrop s 0 = s := by
  cases s
  rfl

theorem ite_empty_self (s : String) : (if s = "" then "" else s) = s := by
  by_cases h : s = "" <;> simp [h]

theorem step_seg_added (st : _StreamState) (t : ToolSpec) :
    _step false st (REvent.outputItemAdded (some (fcAddedItem t)) none) =
      ([], { st with tool_calls := pySet st.tool_calls t.id (registeredTc t),
                     tool_queue := st.tool_queue ++ [t.id] }, false) := by
  simp [_step, fcAddedItem, registeredTc, strOr, Option.getD, ite_empty_self]

theorem step_first_delta (st : _StreamState) (t : ToolSpec) (d : String)
    (hs : pyGet st.tool_calls t.id = some (registeredTc t))
    (ha : st.active_block = none)
    (hq : st.tool_queue = [t.id]) :
    _step false st (REvent.fnArgsDelta (some t.id) (some d)) =
      ((if st.started then [] else
          [AEvent.message_start st.message_id st.model]) ++
        [AEvent.content_block_start (some st.content_index)
           (BlockKind.tool_use (registeredTc t).call_id (registeredTc t).name),
         AEvent.content_block_delta (some st.content_index)
           (DeltaKind.input_json_delta ""),
         AEvent.content_block_delta (some st.content_index)
           (DeltaKind.input_json_delta d)],
       { st with started := true,
                 last_emitted_block_type := some "tool_use",
                 active_block := some (ActiveTag.tool t.id),
                 active_index := some st.content_index,
                 content_index := st.content_index + 1,
                 tool_calls := pySet st.tool_calls t.id
                   { registeredTc t with partial_json := d,
                                         emitted_chars := d.length } },
       false) := by
  have hiid : strOr (some t.id) "" = t.id := strOr_some_right t.id
  have hpd : (registeredTc t).partial_json ++ d = d := str_empty_append d
  by_cases hst : st.started = true
  · simp only [_step, hiid, hs]
    simp only [_ensure_message_started, hst, if_true]
    simp only [_ensure_tool_block, ha, hq]
    simp only [_ensure_tool_block_open, pyGet_pySet_self, _close_active_block, ha]
    simp [hpd, pySet_pySet, hst, ite_empty_self, pyGet_pySet_self, registeredTc]
  · have hstf : st.started = false := by simpa using hst
    simp only [_step, hiid, hs]
    simp only [_ensure_message_started, hstf, Bool.false_eq_true, if_false]
    simp only [_ensure_tool_block, ha, hq]
    simp only [_ensure_tool_block_open, pyGet_pySet_self, _close_active_block, ha]
    simp [hpd, pySet_pySet, hstf, ite_empty_self, pyGet_pySet_self, registeredTc]

theorem step_next_delta (st : _StreamState) (tid : String) (d : String)
    (tc : _ToolCallState)
    (hs : pyGet st.tool_calls tid = some tc)
    (he : tc.emitted_chars = tc.partial_json.length)
    (hst : st.started = true)
    (ha : st.active_block = some (ActiveTag.tool tid))
    (hid : tid ≠ "") :
    _step false st (REvent.fnArgsDelta (some tid) (some d)) =
      ([AEvent.content_block_delta st.active_index
          (DeltaKind.input_json_delta d)],
       { st with tool_calls := pySet st.tool_calls tid (tcAppend tc d) },
       false) := by
  have hiid : strOr (some tid) "" = tid := strOr_some_right tid
  have hlen : (tc.partial_json ++ d).length - d.length = tc.emitted_chars := by
    rw [String.length_append, he]
    omega
  simp [_step, hiid, hs, _ensure_message_started, hst, _ensure_tool_block, ha,
    pyGet_pySet_self, hlen, pySet_pySet, tcAppend, he]

theorem pySet_self {β : Type} (xs : List (String × β)) (k : String)
    (v : β) (h : pyGet xs k = some v) : pySet xs k v = xs := by
  induction xs with
  | nil => simp [pyGet] at h
  | cons p rest ih =>
    obtain ⟨k0, v0⟩ := p
    by_cases h0 : k0 = k
    · subst h0
      simp [pyGet] at h
      simp [pySet, h]
    · simp [pyGet, h0] at h
      simp [pySet, h0, ih h]

theorem str_append_empty (s : String) : s ++ "" = s := by
  cases s with
  | mk l =>
    show String.mk (l ++ []) = String.mk l
    simp

theorem str_join_cons (a : String) (l : List String) :
    String.join (a :: l) = a ++ String.join l := by
  simp only [String.join_eq]
  cases a with
  | mk la => rfl

theorem tcAppend_empty (tc : _ToolCallState) : tcAppend tc "" = tc := by
  simp [tcAppend, str_append_empty]

theorem tcAppend_tcAppend (tc : _ToolCallState) (a b : String) :
    tcAppend (tcAppend tc a) b = tcAppend tc (a ++ b) := by
  simp [tcAppend, String.length_append, List.append_assoc]
  constructor
  · cases tc.partial_json with
    | mk l =>
      cases a with
      | mk la =>
        cases b with
        | mk lb =>
          show String.mk ((l ++ la) ++ lb) = String.mk (l ++ (la ++ lb))
          simp
  · omega

theorem run_deltas (tid : String) (ds : List String) (rest : List REvent)
    (st : _StreamState) (tc : _ToolCallState)
    (hs : pyGet st.tool_calls tid = some tc)
    (he : tc.emitted_chars = tc.partial_json.length)
    (hst : st.started = true)
    (ha : st.active_block = some (ActiveTag.tool tid))
    (hid : tid ≠ "") :
    _run false st (ds.map (fun d =>
        REvent.fnArgsDelta (some tid) (some d)) ++ rest) =
      ds.map (fun d => AEvent.content_block_delta st.active_index
        (DeltaKind.input_json_delta d)) ++
      _run false { st with tool_calls := pySet st.tool_calls tid (tcAppend tc (String.join ds)) } rest := by
  induction ds generalizing st tc with
  | nil =>
    have h0 : tcAppend tc (String.join []) = tc := by
      simp [String.join]
      exact tcAppend_empty tc
    rw [List.map_nil, List.nil_append, List.map_nil, List.nil_append, h0,
      pySet_self _ _ _ hs]
  | cons d ds ih =>
    rw [List.map_cons, List.cons_append, run_cons]
    have hstep := step_next_delta st tid d tc hs he hst ha hid
    rw [hstep]
    simp only [Bool.false_eq_true, if_false, List.map_cons]
    have hih := ih { st with tool_calls := pySet st.tool_calls tid (tcAppend tc d) }
      (tcAppend tc d) (pyGet_pySet_self _ _ _)
      (by simp [tcAppend, String.length_append, he]) hst ha
    rw [hih]
    simp [pySet_pySet, tcAppend_tcAppend, str_join_cons]



theorem str_length_pos (s : String) : 0 < s.length ↔ s ≠ "" := by
  cases s with
  | mk l =>
    cases l with
    | nil => simp [String.length]
    | cons c cs => simp [String.length, String.ext_iff]

theorem doneEmitP_eq_flush (t : ToolSpec) :
    doneEmitP (String.join t.deltas) t.arguments = doneFlushPayloads t := by
  rcases harg : t.arguments with _ | a
  · simp [doneEmitP, doneFlushPayloads, harg]
  · by_cases hj : String.join t.deltas = "" <;>
      by_cases haz : a = "" <;>
      simp [doneEmitP, doneFlushPayloads, harg, hj, haz]

theorem doneAdopt_acc (t : ToolSpec) :
    doneAdopt { registeredTc t with
        partial_json := String.join t.deltas,
        emitted_chars := (String.join t.deltas).length } t.arguments =
      finalTc t := by
  rcases harg : t.arguments with _ | a
  · by_cases hj : String.join t.deltas = "" <;>
      simp [doneAdopt, finalTc, expectedToolJson, registeredTc, harg, hj]
  · by_cases hj : String.join t.deltas = ""
    · by_cases haz : a = "" <;>
        simp [doneAdopt, finalTc, expectedToolJson, registeredTc, harg, hj,
          haz]
    · simp [doneAdopt, finalTc, expectedToolJson, registeredTc, harg, hj]

theorem step_done_active (st : _StreamState) (tid : String)
    (tc : _ToolCallState) (args : Option String)
    (hs : pyGet st.tool_calls tid = some tc)
    (he : tc.emitted_chars = tc.partial_json.length)
    (hst : st.started = true)
    (ha : st.active_block = some (ActiveTag.tool tid))
    (hid : tid ≠ "") :
    _step false st (REvent.fnArgsDone (some tid) args) =
      ((doneEmitP tc.partial_json args).map (fun a =>
          AEvent.content_block_delta st.active_index
            (DeltaKind.input_json_delta a)),
       { st with tool_calls := pySet st.tool_calls tid (doneAdopt tc args) },
       false) := by
  have hiid : strOr (some tid) "" = tid := strOr_some_right tid
  rcases args with _ | a
  · simp [_step, hiid, hs, _ensure_message_started, hst, _ensure_tool_block,
      ha, doneEmitP, doneAdopt]
  · by_cases hp : tc.partial_json = ""
    · by_cases haz : a = ""
      · subst haz
        simp [_step, hiid, hs, _ensure_message_started, hst,
          _ensure_tool_block, ha, doneEmitP, doneAdopt, hp,
          pyGet_pySet_self, pySet_pySet]
      · have hlen : 0 < a.length := (str_length_pos a).2 haz
        have hez : tc.emitted_chars = 0 := by rw [he, hp]; rfl
        simp [_step, hiid, hs, _ensure_message_started, hst,
          _ensure_tool_block, ha, doneEmitP, doneAdopt, hp, haz,
          pyGet_pySet_self, pySet_pySet, hez, hlen, pyDrop_zero]
    · simp [_step, hiid, hs, _ensure_message_started, hst,
        _ensure_tool_block, ha, doneEmitP, doneAdopt, hp,
        pyGet_pySet_self, pySet_pySet, he]

theorem step_done_opening (st : _StreamState) (t : ToolSpec)
    (hs : pyGet st.tool_calls t.id = some (registeredTc t))
    (ha : st.active_block = none)
    (hq : st.tool_queue = [t.id]) :
    _step false st (REvent.fnArgsDone (some t.id) t.arguments) =
      ((if st.started then [] else
          [AEvent.message_start st.message_id st.model]) ++
        ([AEvent.content_block_start (some st.content_index)
            (BlockKind.tool_use (registeredTc t).call_id
              (registeredTc t).name),
          AEvent.content_block_delta (some st.content_index)
            (DeltaKind.input_json_delta "")] ++
         (doneEmitP "" t.arguments).map (fun a =>
           AEvent.content_block_delta (some st.content_index)
             (DeltaKind.input_json_delta a))),
       { st with started := true,
                 last_emitted_block_type := some "tool_use",
                 active_block := some (ActiveTag.tool t.id),
                 active_index := some st.content_index,
                 content_index := st.content_index + 1,
                 tool_calls := pySet st.tool_calls t.id
                   (doneAdopt (registeredTc t) t.arguments) },
       false) := by
  have hiid : strOr (some t.id) "" = t.id := strOr_some_right t.id
  rcases harg : t.arguments with _ | a
  · cases hst : st.started <;>
      simp [_step, hiid, hs, _ensure_message_started, hst,
        _ensure_tool_block, ha, hq, _ensure_tool_block_open,
        pyGet_pySet_self, _close_active_block, pySet_pySet, doneEmitP,
        doneAdopt, registeredTc]
  · by_cases haz : a = ""
    · subst haz
      cases hst : st.started <;>
        simp [_step, hiid, hs, _ensure_message_started, hst,
          _ensure_tool_block, ha, hq, _ensure_tool_block_open,
          pyGet_pySet_self, _close_active_block, pySet_pySet, doneEmitP,
          doneAdopt, registeredTc]
    · have hlen : 0 < a.length := (str_length_pos a).2 haz
      cases hst : st.started <;>
        simp [_step, hiid, hs, _ensure_message_started, hst,
          _ensure_tool_block, ha, hq, _ensure_tool_block_open,
          pyGet_pySet_self, _close_active_block, pySet_pySet, doneEmitP,
          doneAdopt, registeredTc, haz, hlen, pyDrop_zero]

theorem step_item_done (st : _StreamState) (t : ToolSpec)
    (hst : st.started = true)
    (ha : st.active_block = some (ActiveTag.tool t.id))
    (hq : st.tool_queue = [t.id])
    (hl : st.last_emitted_block_type = some "tool_use")
    (hp : st.pending_text = []) :
    _step false st (REvent.outputItemDone (some (fcAddedItem t))) =
      ([AEvent.content_block_stop st.active_index],
       { st with active_block := none, active_index := none,
                 tool_queue := [] }, false) := by
  simp [_step, fcAddedItem, strOr, ite_empty_self, _ensure_message_started,
    hst, _ensure_tool_block, ha, _close_active_block, hq, hl, hp]

theorem run_segment (t : ToolSpec) (rest : List REvent) (st : _StreamState)
    (hs : pyGet st.tool_calls t.id = none)
    (ha : st.active_block = none)
    (hq : st.tool_queue = [])
    (hp : st.pending_text = [])
    (hid : t.id ≠ "") :
    _run false st (toolSegment t ++ rest) =
      toolSegOut st.started st.message_id st.model st.content_index t ++
        _run false
          { st with started := true,
                    active_block := none,
                    active_index := none,
                    content_index := st.content_index + 1,
                    tool_queue := [],
                    last_emitted_block_type := some "tool_use",
                    tool_calls := pySet st.tool_calls t.id (finalTc t) }
          rest := by
  rcases hdel : t.deltas with _ | ⟨d0, ds⟩
  · have hfin : doneAdopt (registeredTc t) t.arguments = finalTc t := by
      have h := doneAdopt_acc t
      rw [hdel] at h
      exact h
    have hfl : doneEmitP "" t.arguments = doneFlushPayloads t := by
      have h := doneEmitP_eq_flush t
      rw [hdel] at h
      exact h
    simp only [toolSegment, hdel, List.map_nil, List.nil_append,
      List.cons_append]
    rw [run_cons, step_seg_added]
    simp only [Bool.false_eq_true, if_false, List.nil_append]
    rw [run_cons]
    rw [step_done_opening
      { st with tool_calls := pySet st.tool_calls t.id (registeredTc t),
                tool_queue := st.tool_queue ++ [t.id] } t
      (pyGet_pySet_self _ _ _) ha (by simp [hq])]
    simp only [Bool.false_eq_true, if_false]
    rw [run_cons]
    rw [step_item_done
      { st with tool_queue := st.tool_queue ++ [t.id],
                started := true,
                last_emitted_block_type := some "tool_use",
                active_block := some (ActiveTag.tool t.id),
                active_index := some st.content_index,
                content_index := st.content_index + 1,
                tool_calls := pySet
                  (pySet st.tool_calls t.id (registeredTc t)) t.id
                  (doneAdopt (registeredTc t) t.arguments) } t
      rfl rfl (by simp [hq]) rfl hp]
    simp only [Bool.false_eq_true, if_false]
    simp [toolSegOut, hdel, hfl, hfin, pySet_pySet, doneFlushPayloads]
  · have hfin : doneAdopt { registeredTc t with
        partial_json := String.join (d0 :: ds),
        emitted_chars := (String.join (d0 :: ds)).length } t.arguments =
        finalTc t := by
      have h := doneAdopt_acc t
      rw [hdel] at h
      exact h
    have hfl : doneEmitP (String.join (d0 :: ds)) t.arguments =
        doneFlushPayloads t := by
      have h := doneEmitP_eq_flush t
      rw [hdel] at h
      exact h
    simp only [toolSegment, hdel, List.map_cons, List.cons_append,
      List.append_assoc]
    rw [run_cons, step_seg_added]
    simp only [Bool.false_eq_true, if_false, List.nil_append]
    rw [run_cons]
    rw [step_first_delta
      { st with tool_calls := pySet st.tool_calls t.id (registeredTc t),
                tool_queue := st.tool_queue ++ [t.id] } t d0
      (pyGet_pySet_self _ _ _) ha (by simp [hq])]
    simp only [Bool.false_eq_true, if_false]
    rw [run_deltas t.id ds
      (REvent.fnArgsDone (some t.id) t.arguments ::
        REvent.outputItemDone (some (fcAddedItem t)) :: rest)
      { st with tool_queue := st.tool_queue ++ [t.id],
                started := true,
                last_emitted_block_type := some "tool_use",
                active_block := some (ActiveTag.tool t.id),
                active_index := some st.content_index,
                content_index := st.content_index + 1,
                tool_calls := pySet
                  (pySet st.tool_calls t.id (registeredTc t)) t.id
                  { registeredTc t with partial_json := d0,
                                        emitted_chars := d0.length } }
      { registeredTc t with partial_json := d0,
                            emitted_chars := d0.length }
      (pyGet_pySet_self _ _ _) rfl rfl rfl hid]
    have hacc : tcAppend
        { registeredTc t with partial_json := d0,
                              emitted_chars := d0.length }
        (String.join ds) =
        { registeredTc t with
            partial_json := String.join (d0 :: ds),
            emitted_chars := (String.join (d0 :: ds)).length } := by
      simp [tcAppend, str_join_cons, String.length_append]
    rw [hacc]
    rw [run_cons]
    rw [step_done_active
      { st with tool_queue := st.tool_queue ++ [t.id],
                started := true,
                last_emitted_block_type := some "tool_use",
                active_block := some (ActiveTag.tool t.id),
                active_index := some st.content_index,
                content_index := st.content_index + 1,
                tool_calls := pySet (pySet
                  (pySet st.tool_calls t.id (registeredTc t)) t.id
                  { registeredTc t with partial_json := d0,
                                        emitted_chars := d0.length }) t.id
                  { registeredTc t with
                      partial_json := String.join (d0 :: ds),
                      emitted_chars := (String.join (d0 :: ds)).length } }
      t.id
      { registeredTc t with
          partial_json := String.join (d0 :: ds),
          emitted_chars := (String.join (d0 :: ds)).length }
      t.arguments (pyGet_pySet_self _ _ _) rfl rfl rfl hid]
    simp only [Bool.false_eq_true, if_false]
    rw [run_cons]
    rw [step_item_done
      { st with tool_queue := st.tool_queue ++ [t.id],
                started := true,
                last_emitted_block_type := some "tool_use",
                active_block := some (ActiveTag.tool t.id),
                active_index := some st.content_index,
                content_index := st.content_index + 1,
                tool_calls := pySet (pySet (pySet
                  (pySet st.tool_calls t.id (registeredTc t)) t.id
                  { registeredTc t with partial_json := d0,
                                        emitted_chars := d0.length }) t.id
                  { registeredTc t with
                      partial_json := String.join (d0 :: ds),
                      emitted_chars := (String.join (d0 :: ds)).length }) t.id
                  (doneAdopt
                    { registeredTc t with
                        partial_json := String.join (d0 :: ds),
                        emitted_chars := (String.join (d0 :: ds)).length }
                    t.arguments) } t
      rfl rfl (by simp [hq]) rfl hp]
    simp only [Bool.false_eq_true, if_false]
    simp [toolSegOut, hdel, hfl, hfin, pySet_pySet]

theorem run_protocol (ts : List ToolSpec) (resp : Option RespF) :
    ∀ st : _StreamState,
    st.active_block = none →
    st.tool_queue = [] →
    st.pending_text = [] →
    (∀ t ∈ ts, pyGet st.tool_calls t.id = none) →
    (∀ t ∈ ts, t.id ≠ "") →
    (ts.map ToolSpec.id).Nodup →
    ∃ st2, _run false st (toolProtocolEvents ts resp) =
      toolSegsOut st.started st.message_id st.model st.content_index ts ++
        _run false st2 [REvent.terminal TermKind.completed resp] := by
  induction ts with
  | nil =>
    intro st _ _ _ _ _ _
    exact ⟨st, by simp [toolProtocolEvents, toolSegsOut]⟩
  | cons t ts ih =>
    intro st ha hq hp hreg hids hnd
    have hseg := run_segment t
      ((ts.map toolSegment).flatten ++
        [REvent.terminal TermKind.completed resp]) st
      (hreg t (by simp)) ha hq hp (hids t (by simp))
    have hnotmem : t.id ∉ ts.map ToolSpec.id := by
      have := hnd
      simp only [List.map_cons, List.nodup_cons] at this
      exact this.1
    obtain ⟨st2, h2⟩ := ih
      { st with started := true,
                active_block := none,
                active_index := none,
                content_index := st.content_index + 1,
                tool_queue := [],
                last_emitted_block_type := some "tool_use",
                tool_calls := pySet st.tool_calls t.id (finalTc t) }
      rfl rfl hp
      (by
        intro u hu
        have hne : ¬t.id = u.id := by
          intro hEq
          exact hnotmem (hEq ▸ List.mem_map_of_mem ToolSpec.id hu)
        show pyGet (pySet st.tool_calls t.id (finalTc t)) u.id = none
        rw [pyGet_pySet_other _ _ _ _ hne]
        exact hreg u (by simp [hu]))
      (fun u hu => hids u (by simp [hu]))
      (by
        have := hnd
        simp only [List.map_cons, List.nodup_cons] at this
        exact this.2)
    refine ⟨st2, ?_⟩
    have hsplit : toolProtocolEvents (t :: ts) resp =
        toolSegment t ++
          ((ts.map toolSegment).flatten ++
            [REvent.terminal TermKind.completed resp]) := by
      simp [toolProtocolEvents, List.append_assoc]
    rw [hsplit, hseg]
    rw [show ((ts.map toolSegment).flatten ++
        [REvent.terminal TermKind.completed resp]) =
        toolProtocolEvents ts resp from rfl]
    rw [h2]
    simp [toolSegsOut, List.append_assoc]

theorem jsonDeltasAt_append (o1 o2 : List AEvent) (i : Option Nat) :
    jsonDeltasAt (o1 ++ o2) i = jsonDeltasAt o1 i ++ jsonDeltasAt o2 i := by
  simp [jsonDeltasAt, List.filterMap_append]

theorem jsonDeltasAt_close (st : _StreamState) (i : Option Nat) :
    jsonDeltasAt (_close_active_block st).1 i = [] := by
  rcases h : st.active_block with _ | tag <;>
    simp [_close_active_block, h, jsonDeltasAt]

theorem jsonDeltasAt_ems (st : _StreamState) (i : Option Nat) :
    jsonDeltasAt (_ensure_message_started st).1 i = [] := by
  cases h : st.started <;> simp [_ensure_message_started, h, jsonDeltasAt]

theorem jsonDeltasAt_temit (st5 : _StreamState) (i : Option Nat) :
    jsonDeltasAt (_terminal_emit false st5).1 i = [] := by
  rcases hcl : _close_active_block st5 with ⟨o1, st6⟩
  rcases hms : _ensure_message_started st6 with ⟨o3, st8⟩
  have ho1 : jsonDeltasAt o1 i = [] := by
    have h := jsonDeltasAt_close st5 i
    rw [hcl] at h
    exact h
  have ho3 : jsonDeltasAt o3 i = [] := by
    have h := jsonDeltasAt_ems st6 i
    rw [hms] at h
    exact h
  simp only [jsonDeltasAt, List.filterMap_eq_nil_iff] at ho1 ho3
  simp [_terminal_emit, hcl, hms, jsonDeltasAt_append, jsonDeltasAt]
  exact ⟨ho1, ho3⟩

theorem run_terminal_json (st : _StreamState) (k : TermKind)
    (resp : Option RespF) (i : Option Nat) :
    jsonDeltasAt (_run false st [REvent.terminal k resp]) i = [] := by
  obtain ⟨st5, hstep⟩ :
      ∃ st5, _step false st (REvent.terminal k resp) =
        _terminal_emit false st5 := ⟨_, rfl⟩
  rw [run_cons, hstep]
  have hh : (_terminal_emit false st5).2.2 = true := rfl
  rw [hh, if_pos rfl]
  exact jsonDeltasAt_temit st5 i

theorem str_append_assoc (a b c : String) :
    (a ++ b) ++ c = a ++ (b ++ c) := by
  cases a with
  | mk la =>
    cases b with
    | mk lb =>
      cases c with
      | mk lc =>
        show String.mk ((la ++ lb) ++ lc) = String.mk (la ++ (lb ++ lc))
        simp

theorem str_join_append (l1 l2 : List String) :
    String.join (l1 ++ l2) = String.join l1 ++ String.join l2 := by
  induction l1 with
  | nil =>
    show String.join l2 = String.join [] ++ String.join l2
    rw [show String.join ([] : List String) = "" from rfl, str_empty_append]
  | cons a l ih =>
    rw [List.cons_append, str_join_cons, str_join_cons, ih, str_append_assoc]

theorem str_join_nil : String.join ([] : List String) = "" := rfl

theorem join_seg_payloads (t : ToolSpec) :
    String.join ("" :: (t.deltas ++ doneFlushPayloads t)) =
      expectedToolJson t := by
  rw [str_join_cons, str_empty_append, str_join_append]
  by_cases hjd : String.join t.deltas = ""
  · rcases harg : t.arguments with _ | a
    · simp [doneFlushPayloads, hjd, harg, expectedToolJson,
        str_append_empty, str_join_nil]
    · by_cases haz : a = ""
      · simp [doneFlushPayloads, hjd, harg, haz, expectedToolJson,
          str_append_empty, str_join_nil]
      · simp [doneFlushPayloads, hjd, harg, haz, expectedToolJson,
          str_join_cons, str_join_nil, str_append_empty, str_empty_append]
  · simp [doneFlushPayloads, hjd, expectedToolJson, str_append_empty,
      str_join_nil]

theorem jsonDeltasAt_nil (i : Option Nat) : jsonDeltasAt [] i = [] := rfl

theorem jsonDeltasAt_cons (e : AEvent) (out : List AEvent) (i : Option Nat) :
    jsonDeltasAt (e :: out) i =
      (Option.toList (match e with
        | AEvent.content_block_delta j (DeltaKind.input_json_delta p) =>
          if j = i then some p else none
        | _ => none)) ++ jsonDeltasAt out i := by
  simp only [jsonDeltasAt, List.filterMap_cons]
  rcases hfe : (match e with
    | AEvent.content_block_delta j (DeltaKind.input_json_delta p) =>
      if j = i then some p else none
    | _ => none) with _ | p <;> simp [hfe]

theorem jsonDeltasAt_deltaMap (l : List String) (m n : Nat) :
    jsonDeltasAt (l.map (fun d =>
      AEvent.content_block_delta (some m) (DeltaKind.input_json_delta d)))
      (some n) = if m = n then l else [] := by
  induction l with
  | nil => simp [jsonDeltasAt_nil]
  | cons a l ih =>
    rw [List.map_cons, jsonDeltasAt_cons, ih]
    by_cases h : m = n <;> simp [h]

theorem jsonDeltasAt_segOut (started : Bool) (midStr mdl : String)
    (i : Nat) (t : ToolSpec) (n : Nat) :
    jsonDeltasAt (toolSegOut started midStr mdl i t) (some n) =
      if n = i then "" :: (t.deltas ++ doneFlushPayloads t) else [] := by
  by_cases h : n = i
  · subst h
    cases started <;>
      simp [toolSegOut, jsonDeltasAt_append, jsonDeltasAt_cons,
        jsonDeltasAt_nil, jsonDeltasAt_deltaMap]
  · have hne : ¬i = n := fun hEq => h hEq.symm
    cases started <;>
      simp [toolSegOut, jsonDeltasAt_append, jsonDeltasAt_cons,
        jsonDeltasAt_nil, jsonDeltasAt_deltaMap, h, hne]

theorem jsonDeltasAt_segsOut_lt (midStr mdl : String) :
    ∀ (ts : List ToolSpec) (started : Bool) (i n : Nat), n < i →
    jsonDeltasAt (toolSegsOut started midStr mdl i ts) (some n) = [] := by
  intro ts
  induction ts with
  | nil => intro _ _ _ _; simp [toolSegsOut, jsonDeltasAt_nil]
  | cons t ts ih =>
    intro started i n hlt
    simp only [toolSegsOut]
    rw [jsonDeltasAt_append, jsonDeltasAt_segOut]
    have hne : ¬n = i := by omega
    rw [if_neg hne, List.nil_append]
    exact ih true (i + 1) n (by omega)

theorem jsonDeltasAt_segsOut (midStr mdl : String) :
    ∀ (ts : List ToolSpec) (started : Bool) (i j : Nat) (hj : j < ts.length),
    jsonDeltasAt (toolSegsOut started midStr mdl i ts) (some (i + j)) =
      "" :: ((ts.get ⟨j, hj⟩).deltas ++
        doneFlushPayloads (ts.get ⟨j, hj⟩)) := by
  intro ts
  induction ts with
  | nil => intro _ _ j hj; exact absurd hj (by simp)
  | cons t ts ih =>
    intro started i j hj
    simp only [toolSegsOut]
    rw [jsonDeltasAt_append, jsonDeltasAt_segOut]
    rcases j with _ | j
    · rw [Nat.add_zero, if_pos rfl]
      rw [jsonDeltasAt_segsOut_lt midStr mdl ts true (i + 1) i (by omega)]
      simp [List.get]
    · have hne : ¬(i + (j + 1)) = i := by omega
      rw [if_neg hne, List.nil_append]
      have hj2 : j < ts.length := by simpa using hj
      have h := ih true (i + 1) j hj2
      rw [show i + (j + 1) = (i + 1) + j by omega, h]
      rfl


/-- C2 (amended): for a protocol-ordered upstream stream (for each announced
function tool, in announcement order: `output_item.added`, its
`function_call_arguments.delta` events, `function_call_arguments.done`, its
`output_item.done`; then a terminal event), with distinct non-empty item
ids, the `input_json_delta` payloads emitted for the `j`-th tool's block
concatenate to that tool's reconstructed input JSON: the concatenation of
its upstream argument deltas, or the `arguments` string of its `.done`
event when the deltas concatenate to the empty string. -/
theorem c2_tool_json_protocol (ts : List ToolSpec) (resp : Option RespF)
    (model : String) (message_id : Option String) (u : String)
    (hids : ∀ t ∈ ts, t.id ≠ "")
    (hnd : (ts.map ToolSpec.id).Nodup)
    (j : Nat) (hj : j < ts.length) :
    String.join (jsonDeltasAt
        (iter_anthropic_events (toolProtocolEvents ts resp) model
          message_id u false) (some j)) =
      expectedToolJson (ts.get ⟨j, hj⟩) := by
  obtain ⟨st2, h2⟩ := run_protocol ts resp
    { message_id := strOr message_id ("msg_" ++ u), model := model }
    rfl rfl rfl (fun t _ => rfl) hids hnd
  show String.join (jsonDeltasAt
    (_run false { message_id := strOr message_id ("msg_" ++ u),
                  model := model } (toolProtocolEvents ts resp))
    (some j)) = _
  rw [h2, jsonDeltasAt_append, run_terminal_json, List.append_nil]
  have h := jsonDeltasAt_segsOut (strOr message_id ("msg_" ++ u)) model ts
    false 0 j hj
  rw [Nat.zero_add] at h
  rw [h]
  exact join_seg_payloads _

theorem c2_tool_json_protocol_witness :
    (∀ t ∈ c2WitnessTools, t.id ≠ "") ∧
    (c2WitnessTools.map ToolSpec.id).Nodup ∧
    String.join (jsonDeltasAt
        (iter_anthropic_events (toolProtocolEvents c2WitnessTools none)
          "gpt-test" (some "msg_w") "" false) (some 1)) =
      expectedToolJson (c2WitnessTools.get ⟨1, by decide⟩) :=
  ⟨by decide, by decide,
   c2_tool_json_protocol c2WitnessTools none "gpt-test" (some "msg_w") ""
     (by decide) (by decide) 1 (by decide)⟩

theorem step_text_first (st : _StreamState) (x : String)
    (hx : x ≠ "") (ha : st.active_block = none) :
    _step false st (REvent.outputTextDelta (some x)) =
      ((if st.started then [] else
          [AEvent.message_start st.message_id st.model]) ++
        [AEvent.content_block_start (some st.content_index) BlockKind.text,
         AEvent.content_block_delta (some st.content_index)
           (DeltaKind.text_delta x)],
       { st with started := true,
                 active_block := some ActiveTag.text,
                 active_index := some st.content_index,
                 content_index := st.content_index + 1,
                 last_emitted_block_type := some "text" }, false) := by
  cases hst : st.started <;>
    simp [_step, _ensure_message_started, hst, hx, ha, _ensure_text_block,
      _close_active_block]

theorem step_text_next (st : _StreamState) (x : String)
    (hx : x ≠ "") (hst : st.started = true)
    (ha : st.active_block = some ActiveTag.text) :
    _step false st (REvent.outputTextDelta (some x)) =
      ([AEvent.content_block_delta st.active_index (DeltaKind.text_delta x)],
       st, false) := by
  simp [_step, _ensure_message_started, hst, hx, ha, _ensure_text_block]

theorem run_texts (xs : List String) (rest : List REvent)
    (st : _StreamState)
    (hxs : ∀ x ∈ xs, x ≠ "")
    (hst : st.started = true)
    (ha : st.active_block = some ActiveTag.text) :
    _run false st (xs.map (fun x => REvent.outputTextDelta (some x)) ++
        rest) =
      xs.map (fun x => AEvent.content_block_delta st.active_index
        (DeltaKind.text_delta x)) ++ _run false st rest := by
  induction xs with
  | nil => simp
  | cons x xs ih =>
    rw [List.map_cons, List.cons_append, run_cons,
      step_text_next st x (hxs x (by simp)) hst ha]
    simp only [Bool.false_eq_true, if_false, List.map_cons]
    rw [ih (fun y hy => hxs y (by simp [hy]))]
    simp

theorem step_text_pending (st : _StreamState) (x : String) (tid : String)
    (hx : x ≠ "") (hst : st.started = true)
    (ha : st.active_block = some (ActiveTag.tool tid)) :
    _step false st (REvent.outputTextDelta (some x)) =
      ([], { st with pending_text := st.pending_text ++ [x] }, false) := by
  simp [_step, _ensure_message_started, hst, hx, ha]

theorem run_mid (tid : String) (mid : List (String ⊕ String))
    (rest : List REvent) :
    ∀ (st : _StreamState) (tc : _ToolCallState),
    pyGet st.tool_calls tid = some tc →
    tc.emitted_chars = tc.partial_json.length →
    st.started = true →
    st.active_block = some (ActiveTag.tool tid) →
    tid ≠ "" →
    (∀ x ∈ sumInrs mid, x ≠ "") →
    _run false st (mid.map (fun e => match e with
        | Sum.inl d => REvent.fnArgsDelta (some tid) (some d)
        | Sum.inr x => REvent.outputTextDelta (some x)) ++ rest) =
      (sumInls mid).map (fun d => AEvent.content_block_delta st.active_index
        (DeltaKind.input_json_delta d)) ++
      _run false { st with
          tool_calls := pySet st.tool_calls tid
            (tcAppend tc (String.join (sumInls mid))),
          pending_text := st.pending_text ++ sumInrs mid } rest := by
  induction mid with
  | nil =>
    intro st tc hs he hst ha hid h2
    simp only [List.map_nil, List.nil_append, sumInls, sumInrs,
      List.filterMap_nil]
    rw [show String.join ([] : List String) = "" from rfl, tcAppend_empty,
      pySet_self _ _ _ hs, List.append_nil]
  | cons e mid ih =>
    intro st tc hs he hst ha hid h2
    rcases e with d | x
    · rw [List.map_cons, List.cons_append, run_cons,
        step_next_delta st tid d tc hs he hst ha hid]
      simp only [Bool.false_eq_true, if_false]
      rw [ih { st with tool_calls := pySet st.tool_calls tid (tcAppend tc d) }
        (tcAppend tc d) (pyGet_pySet_self _ _ _)
        (by simp [tcAppend, String.length_append, he]) hst ha hid
        (by
          intro y hy
          exact h2 y (by simp [sumInrs] at hy ⊢; exact hy))]
      simp [sumInls, sumInrs, pySet_pySet, tcAppend_tcAppend, str_join_cons]
    · rw [List.map_cons, List.cons_append, run_cons,
        step_text_pending st x tid
          (h2 x (by simp [sumInrs])) hst ha]
      simp only [Bool.false_eq_true, if_false, List.nil_append]
      rw [ih { st with pending_text := st.pending_text ++ [x] } tc hs he hst
        ha hid
        (by
          intro y hy
          exact h2 y (by simp [sumInrs] at hy ⊢; exact Or.inr hy))]
      simp [sumInls, sumInrs, List.append_assoc]

theorem step_first_delta_closing (st : _StreamState) (t : ToolSpec)
    (d : String)
    (hs : pyGet st.tool_calls t.id = some (registeredTc t))
    (hst : st.started = true)
    (ha : st.active_block = some ActiveTag.text)
    (hl : st.last_emitted_block_type = some "text")
    (hq : st.tool_queue = [t.id]) :
    _step false st (REvent.fnArgsDelta (some t.id) (some d)) =
      ([AEvent.content_block_stop st.active_index,
        AEvent.content_block_start (some st.content_index)
          (BlockKind.tool_use (registeredTc t).call_id (registeredTc t).name),
        AEvent.content_block_delta (some st.content_index)
          (DeltaKind.input_json_delta ""),
        AEvent.content_block_delta (some st.content_index)
          (DeltaKind.input_json_delta d)],
       { st with last_emitted_block_type := some "tool_use",
                 active_block := some (ActiveTag.tool t.id),
                 active_index := some st.content_index,
                 content_index := st.content_index + 1,
                 tool_calls := pySet st.tool_calls t.id
                   { registeredTc t with partial_json := d,
                                         emitted_chars := d.length } },
       false) := by
  have hiid : strOr (some t.id) "" = t.id := strOr_some_right t.id
  have hpd : (registeredTc t).partial_json ++ d = d := str_empty_append d
  simp only [_step, hiid, hs]
  simp only [_ensure_message_started, hst, if_true]
  simp only [_ensure_tool_block, ha, hq]
  simp only [_ensure_tool_block_open, pyGet_pySet_self, _close_active_block,
    ha, hl]
  simp [hpd, pySet_pySet, hst, ite_empty_self, pyGet_pySet_self, registeredTc]

theorem step_item_done_pending (st : _StreamState) (t : ToolSpec)
    (hst : st.started = true)
    (ha : st.active_block = some (ActiveTag.tool t.id))
    (hq : st.tool_queue = [t.id])
    (hl : st.last_emitted_block_type = some "tool_use")
    (hp : st.pending_text ≠ []) :
    _step false st (REvent.outputItemDone (some (fcAddedItem t))) =
      (AEvent.content_block_stop st.active_index ::
        AEvent.content_block_start (some st.content_index) BlockKind.text ::
        st.pending_text.map (fun c =>
          AEvent.content_block_delta (some st.content_index)
            (DeltaKind.text_delta c)),
       { st with active_block := some ActiveTag.text,
                 active_index := some st.content_index,
                 content_index := st.content_index + 1,
                 tool_queue := [],
                 last_emitted_block_type := some "text",
                 pending_text := [] }, false) := by
  simp [_step, fcAddedItem, strOr, ite_empty_self, _ensure_message_started,
    hst, _ensure_tool_block, ha, _close_active_block, hq, hl, hp,
    _ensure_text_block]

theorem textDeltas_nil : textDeltas [] = [] := rfl

theorem textDeltas_cons (e : AEvent) (out : List AEvent) :
    textDeltas (e :: out) =
      (Option.toList (match e with
        | AEvent.content_block_delta _ (DeltaKind.text_delta s) => some s
        | _ => none)) ++ textDeltas out := by
  simp only [textDeltas, List.filterMap_cons]
  rcases hfe : (match e with
    | AEvent.content_block_delta _ (DeltaKind.text_delta s) => some s
    | _ => none) with _ | p <;> simp [hfe]

theorem textDeltas_append (o1 o2 : List AEvent) :
    textDeltas (o1 ++ o2) = textDeltas o1 ++ textDeltas o2 := by
  simp [textDeltas, List.filterMap_append]

theorem textDeltas_close (st : _StreamState) :
    textDeltas (_close_active_block st).1 = [] := by
  rcases h : st.active_block with _ | tag <;>
    simp [_close_active_block, h, textDeltas]

theorem textDeltas_ems (st : _StreamState) :
    textDeltas (_ensure_message_started st).1 = [] := by
  cases h : st.started <;> simp [_ensure_message_started, h, textDeltas]

theorem textDeltas_temit (st5 : _StreamState) :
    textDeltas (_terminal_emit false st5).1 = [] := by
  rcases hcl : _close_active_block st5 with ⟨o1, st6⟩
  rcases hms : _ensure_message_started st6 with ⟨o3, st8⟩
  have ho1 : textDeltas o1 = [] := by
    have h := textDeltas_close st5
    rw [hcl] at h
    exact h
  have ho3 : textDeltas o3 = [] := by
    have h := textDeltas_ems st6
    rw [hms] at h
    exact h
  simp only [textDeltas, List.filterMap_eq_nil_iff] at ho1 ho3
  simp [_terminal_emit, hcl, hms, textDeltas_append, textDeltas]
  exact ⟨ho1, ho3⟩

theorem run_terminal_text (st : _StreamState) (k : TermKind)
    (resp : Option RespF) :
    textDeltas (_run false st [REvent.terminal k resp]) = [] := by
  obtain ⟨st5, hstep⟩ :
      ∃ st5, _step false st (REvent.terminal k resp) =
        _terminal_emit false st5 := ⟨_, rfl⟩
  rw [run_cons, hstep]
  have hh : (_terminal_emit false st5).2.2 = true := rfl
  rw [hh, if_pos rfl]
  exact textDeltas_temit st5

theorem textDeltas_textMap (xs : List String) (i : Option Nat) :
    textDeltas (xs.map (fun x =>
      AEvent.content_block_delta i (DeltaKind.text_delta x))) = xs := by
  induction xs with
  | nil => rfl
  | cons x xs ih => simp [textDeltas] at ih ⊢; exact ih

theorem textDeltas_jsonMap (xs : List String) (i : Option Nat) :
    textDeltas (xs.map (fun x =>
      AEvent.content_block_delta i (DeltaKind.input_json_delta x))) = [] := by
  simp [textDeltas, List.filterMap_eq_nil_iff]

theorem run_tail (tool : ToolSpec) (t3s : List String) (resp : Option RespF)
    (st : _StreamState) (tc : _ToolCallState)
    (hs : pyGet st.tool_calls tool.id = some tc)
    (he : tc.emitted_chars = tc.partial_json.length)
    (hst : st.started = true)
    (ha : st.active_block = some (ActiveTag.tool tool.id))
    (hq : st.tool_queue = [tool.id])
    (hl : st.last_emitted_block_type = some "tool_use")
    (hid : tool.id ≠ "")
    (h3 : ∀ x ∈ t3s, x ≠ "") :
    ∃ post,
      _run false st (REvent.fnArgsDone (some tool.id) tool.arguments ::
        REvent.outputItemDone (some (fcAddedItem tool)) ::
        (t3s.map (fun x => REvent.outputTextDelta (some x)) ++
          [REvent.terminal TermKind.completed resp])) =
        (doneEmitP tc.partial_json tool.arguments).map (fun a =>
          AEvent.content_block_delta st.active_index
            (DeltaKind.input_json_delta a)) ++
        AEvent.content_block_stop st.active_index :: post ∧
      textDeltas post = st.pending_text ++ t3s := by
  rw [run_cons, step_done_active st tool.id tc tool.arguments hs he hst ha
    hid]
  simp only [Bool.false_eq_true, if_false]
  by_cases hp : st.pending_text = []
  · have hD := step_item_done { st with tool_calls := pySet st.tool_calls tool.id (doneAdopt tc tool.arguments) } tool hst ha hq hl hp
    rw [run_cons, hD]
    simp only [Bool.false_eq_true, if_false]
    rcases t3s with _ | ⟨y, ys⟩
    · simp only [List.map_nil, List.nil_append, List.singleton_append]
      refine ⟨_, rfl, ?_⟩
      rw [run_terminal_text, hp, List.nil_append]
    · have hT := step_text_first { st with tool_calls := pySet st.tool_calls tool.id (doneAdopt tc tool.arguments), active_block := none, active_index := none, tool_queue := [] } y (h3 y (by simp)) rfl
      simp only [List.map_cons, List.cons_append, List.nil_append,
        List.singleton_append]
      rw [run_cons, hT]
      simp only [Bool.false_eq_true, if_false, hst, if_true]
      have hR2 := run_texts ys [REvent.terminal TermKind.completed resp] { st with tool_calls := pySet st.tool_calls tool.id (doneAdopt tc tool.arguments), tool_queue := [], started := true, active_block := some ActiveTag.text, active_index := some st.content_index, content_index := st.content_index + 1, last_emitted_block_type := some "text" } (fun z hz => h3 z (by simp [hz])) rfl rfl
      rw [hR2]
      simp only [List.singleton_append, List.cons_append, List.append_assoc,
        List.nil_append]
      refine ⟨_, rfl, ?_⟩
      rw [hp]
      simp [textDeltas_cons, textDeltas_append, textDeltas_textMap,
        run_terminal_text, textDeltas_nil]
  · have hDp := step_item_done_pending { st with tool_calls := pySet st.tool_calls tool.id (doneAdopt tc tool.arguments) } tool hst ha hq hl hp
    rw [run_cons, hDp]
    simp only [Bool.false_eq_true, if_false]
    have hR3 := run_texts t3s [REvent.terminal TermKind.completed resp] { st with tool_calls := pySet st.tool_calls tool.id (doneAdopt tc tool.arguments), active_block := some ActiveTag.text, active_index := some st.content_index, content_index := st.content_index + 1, tool_queue := [], last_emitted_block_type := some "text", pending_text := [] } h3 hst rfl
    rw [hR3]
    simp only [List.cons_append, List.append_assoc, List.nil_append]
    refine ⟨_, rfl, ?_⟩
    simp [textDeltas_cons, textDeltas_append, textDeltas_textMap,
      run_terminal_text, textDeltas_nil]

theorem run_text_tool_none (tool : ToolSpec) (d0 : String)
    (mid : List (String ⊕ String)) (t3s : List String) (resp : Option RespF)
    (st : _StreamState)
    (hreg : pyGet st.tool_calls tool.id = none)
    (ha : st.active_block = none)
    (hq : st.tool_queue = [])
    (hp : st.pending_text = [])
    (hid : tool.id ≠ "")
    (h2 : ∀ y ∈ sumInrs mid, y ≠ "")
    (h3 : ∀ y ∈ t3s, y ≠ "") :
    ∃ post,
      _run false st (REvent.outputItemAdded (some (fcAddedItem tool)) none ::
        REvent.fnArgsDelta (some tool.id) (some d0) ::
        (mid.map (fun e => match e with
          | Sum.inl d => REvent.fnArgsDelta (some tool.id) (some d)
          | Sum.inr x => REvent.outputTextDelta (some x)) ++
         (REvent.fnArgsDone (some tool.id) tool.arguments ::
          REvent.outputItemDone (some (fcAddedItem tool)) ::
          (t3s.map (fun x => REvent.outputTextDelta (some x)) ++
           [REvent.terminal TermKind.completed resp])))) =
        (if st.started then [] else
          [AEvent.message_start st.message_id st.model]) ++
        (AEvent.content_block_start (some st.content_index)
           (BlockKind.tool_use (registeredTc tool).call_id
             (registeredTc tool).name) ::
         AEvent.content_block_delta (some st.content_index)
           (DeltaKind.input_json_delta "") ::
         AEvent.content_block_delta (some st.content_index)
           (DeltaKind.input_json_delta d0) ::
         ((sumInls mid).map (fun d => AEvent.content_block_delta
            (some st.content_index) (DeltaKind.input_json_delta d)) ++
          ((doneEmitP (d0 ++ String.join (sumInls mid))
              tool.arguments).map (fun a => AEvent.content_block_delta
            (some st.content_index) (DeltaKind.input_json_delta a)) ++
           AEvent.content_block_stop (some st.content_index) :: post))) ∧
      textDeltas post = sumInrs mid ++ t3s := by
  rw [run_cons, step_seg_added]
  simp only [Bool.false_eq_true, if_false, List.nil_append]
  rw [run_cons]
  rw [step_first_delta
    { st with tool_calls := pySet st.tool_calls tool.id (registeredTc tool),
              tool_queue := st.tool_queue ++ [tool.id] } tool d0
    (pyGet_pySet_self _ _ _) ha (by simp [hq])]
  simp only [Bool.false_eq_true, if_false]
  rw [run_mid tool.id mid _
    { st with tool_queue := st.tool_queue ++ [tool.id],
              started := true,
              last_emitted_block_type := some "tool_use",
              active_block := some (ActiveTag.tool tool.id),
              active_index := some st.content_index,
              content_index := st.content_index + 1,
              tool_calls := pySet
                (pySet st.tool_calls tool.id (registeredTc tool)) tool.id
                { registeredTc tool with partial_json := d0,
                                         emitted_chars := d0.length } }
    { registeredTc tool with partial_json := d0,
                             emitted_chars := d0.length }
    (pyGet_pySet_self _ _ _) rfl rfl rfl hid h2]
  obtain ⟨post, hpost, htext⟩ := run_tail tool t3s resp
    { st with tool_queue := st.tool_queue ++ [tool.id],
              started := true,
              last_emitted_block_type := some "tool_use",
              active_block := some (ActiveTag.tool tool.id),
              active_index := some st.content_index,
              content_index := st.content_index + 1,
              pending_text := st.pending_text ++ sumInrs mid,
              tool_calls := pySet (pySet
                (pySet st.tool_calls tool.id (registeredTc tool)) tool.id
                { registeredTc tool with partial_json := d0,
                                         emitted_chars := d0.length })
                tool.id
                (tcAppend { registeredTc tool with partial_json := d0, emitted_chars := d0.length }
                  (String.join (sumInls mid))) }
    (tcAppend { registeredTc tool with partial_json := d0, emitted_chars := d0.length } (String.join (sumInls mid)))
    (pyGet_pySet_self _ _ _)
    (by simp [tcAppend, String.length_append]) rfl rfl (by simp [hq]) rfl
    hid h3
  rw [hpost]
  refine ⟨post, ?_, ?_⟩
  · simp [tcAppend, List.append_assoc]
  · rw [htext]
    simp [hp]

theorem run_text_tool_text (tool : ToolSpec) (d0 : String)
    (mid : List (String ⊕ String)) (t3s : List String) (resp : Option RespF)
    (st : _StreamState)
    (hreg : pyGet st.tool_calls tool.id = none)
    (hst : st.started = true)
    (ha : st.active_block = some ActiveTag.text)
    (hl : st.last_emitted_block_type = some "text")
    (hq : st.tool_queue = [])
    (hp : st.pending_text = [])
    (hid : tool.id ≠ "")
    (h2 : ∀ y ∈ sumInrs mid, y ≠ "")
    (h3 : ∀ y ∈ t3s, y ≠ "") :
    ∃ post,
      _run false st (REvent.outputItemAdded (some (fcAddedItem tool)) none ::
        REvent.fnArgsDelta (some tool.id) (some d0) ::
        (mid.map (fun e => match e with
          | Sum.inl d => REvent.fnArgsDelta (some tool.id) (some d)
          | Sum.inr x => REvent.outputTextDelta (some x)) ++
         (REvent.fnArgsDone (some tool.id) tool.arguments ::
          REvent.outputItemDone (some (fcAddedItem tool)) ::
          (t3s.map (fun x => REvent.outputTextDelta (some x)) ++
           [REvent.terminal TermKind.completed resp])))) =
        AEvent.content_block_stop st.active_index ::
        AEvent.content_block_start (some st.content_index)
          (BlockKind.tool_use (registeredTc tool).call_id
            (registeredTc tool).name) ::
        AEvent.content_block_delta (some st.content_index)
          (DeltaKind.input_json_delta "") ::
        AEvent.content_block_delta (some st.content_index)
          (DeltaKind.input_json_delta d0) ::
        ((sumInls mid).map (fun d => AEvent.content_block_delta
           (some st.content_index) (DeltaKind.input_json_delta d)) ++
         ((doneEmitP (d0 ++ String.join (sumInls mid))
             tool.arguments).map (fun a => AEvent.content_block_delta
           (some st.content_index) (DeltaKind.input_json_delta a)) ++
          AEvent.content_block_stop (some st.content_index) :: post)) ∧
      textDeltas post = sumInrs mid ++ t3s := by
  rw [run_cons, step_seg_added]
  simp only [Bool.false_eq_true, if_false, List.nil_append]
  rw [run_cons]
  rw [step_first_delta_closing
    { st with tool_calls := pySet st.tool_calls tool.id (registeredTc tool),
              tool_queue := st.tool_queue ++ [tool.id] } tool d0
    (pyGet_pySet_self _ _ _) hst ha hl (by simp [hq])]
  simp only [Bool.false_eq_true, if_false]
  rw [run_mid tool.id mid _
    { st with tool_queue := st.tool_queue ++ [tool.id],
              last_emitted_block_type := some "tool_use",
              active_block := some (ActiveTag.tool tool.id),
              active_index := some st.content_index,
              content_index := st.content_index + 1,
              tool_calls := pySet
                (pySet st.tool_calls tool.id (registeredTc tool)) tool.id
                { registeredTc tool with partial_json := d0,
                                         emitted_chars := d0.length } }
    { registeredTc tool with partial_json := d0,
                             emitted_chars := d0.length }
    (pyGet_pySet_self _ _ _) rfl hst rfl hid h2]
  obtain ⟨post, hpost, htext⟩ := run_tail tool t3s resp
    { st with tool_queue := st.tool_queue ++ [tool.id],
              last_emitted_block_type := some "tool_use",
              active_block := some (ActiveTag.tool tool.id),
              active_index := some st.content_index,
              content_index := st.content_index + 1,
              pending_text := st.pending_text ++ sumInrs mid,
              tool_calls := pySet (pySet
                (pySet st.tool_calls tool.id (registeredTc tool)) tool.id
                { registeredTc tool with partial_json := d0,
                                         emitted_chars := d0.length })
                tool.id
                (tcAppend { registeredTc tool with partial_json := d0, emitted_chars := d0.length }
                  (String.join (sumInls mid))) }
    (tcAppend { registeredTc tool with partial_json := d0, emitted_chars := d0.length } (String.join (sumInls mid)))
    (pyGet_pySet_self _ _ _)
    (by simp [tcAppend, String.length_append]) hst rfl (by simp [hq]) rfl
    hid h3
  rw [hpost]
  refine ⟨post, ?_, ?_⟩
  · simp [tcAppend, List.append_assoc]
  · rw [htext]
    simp [hp]

theorem c4_run_split (t1s : List String) (tool : ToolSpec) (d0 : String)
    (mid : List (String ⊕ String)) (t3s : List String) (resp : Option RespF)
    (st : _StreamState)
    (hreg : pyGet st.tool_calls tool.id = none)
    (ha : st.active_block = none) (hq : st.tool_queue = [])
    (hp : st.pending_text = []) (hid : tool.id ≠ "")
    (h1 : ∀ y ∈ t1s, y ≠ "") (h2 : ∀ y ∈ sumInrs mid, y ≠ "")
    (h3 : ∀ y ∈ t3s, y ≠ "") :
    ∃ pre post,
      _run false st (textAroundToolEvents t1s tool d0 mid t3s resp) =
        pre ++ AEvent.content_block_stop
          (some (if t1s = [] then st.content_index
                 else st.content_index + 1)) :: post ∧
      textDeltas pre = t1s ∧
      textDeltas post = sumInrs mid ++ t3s := by
  rcases t1s with _ | ⟨x, xs⟩
  · simp only [textAroundToolEvents, List.map_nil, List.nil_append,
      List.cons_append, List.append_assoc]
    obtain ⟨post, heq, htd⟩ := run_text_tool_none tool d0 mid t3s resp st
      hreg ha hq hp hid h2 h3
    rw [heq]
    refine ⟨(if st.started then [] else
        [AEvent.message_start st.message_id st.model]) ++
      (AEvent.content_block_start (some st.content_index)
         (BlockKind.tool_use (registeredTc tool).call_id
           (registeredTc tool).name) ::
       AEvent.content_block_delta (some st.content_index)
         (DeltaKind.input_json_delta "") ::
       AEvent.content_block_delta (some st.content_index)
         (DeltaKind.input_json_delta d0) ::
       ((sumInls mid).map (fun d => AEvent.content_block_delta
          (some st.content_index) (DeltaKind.input_json_delta d)) ++
        (doneEmitP (d0 ++ String.join (sumInls mid))
            tool.arguments).map (fun a => AEvent.content_block_delta
          (some st.content_index) (DeltaKind.input_json_delta a)))),
      post, ?_, ?_, htd⟩
    · simp [List.append_assoc]
    · cases hst : st.started <;>
        simp [textDeltas_append, textDeltas_cons, textDeltas_jsonMap,
          textDeltas_nil, hst]
  · simp only [textAroundToolEvents, List.map_cons, List.cons_append,
      List.append_assoc, List.nil_append]
    rw [run_cons]
    rw [step_text_first st x (h1 x (by simp)) ha]
    simp only [Bool.false_eq_true, if_false]
    rw [run_texts xs _
      { st with started := true, active_block := some ActiveTag.text,
                active_index := some st.content_index,
                content_index := st.content_index + 1,
                last_emitted_block_type := some "text" }
      (fun y hy => h1 y (by simp [hy])) rfl rfl]
    obtain ⟨post, heq, htd⟩ := run_text_tool_text tool d0 mid t3s resp
      { st with started := true, active_block := some ActiveTag.text,
                active_index := some st.content_index,
                content_index := st.content_index + 1,
                last_emitted_block_type := some "text" }
      hreg rfl rfl rfl hq hp hid h2 h3
    rw [heq]
    refine ⟨(if st.started then [] else
        [AEvent.message_start st.message_id st.model]) ++
      (AEvent.content_block_start (some st.content_index) BlockKind.text ::
       AEvent.content_block_delta (some st.content_index)
         (DeltaKind.text_delta x) ::
       (xs.map (fun y => AEvent.content_block_delta (some st.content_index)
          (DeltaKind.text_delta y)) ++
        (AEvent.content_block_stop (some st.content_index) ::
         AEvent.content_block_start (some (st.content_index + 1))
           (BlockKind.tool_use (registeredTc tool).call_id
             (registeredTc tool).name) ::
         AEvent.content_block_delta (some (st.content_index + 1))
           (DeltaKind.input_json_delta "") ::
         AEvent.content_block_delta (some (st.content_index + 1))
           (DeltaKind.input_json_delta d0) ::
         ((sumInls mid).map (fun d => AEvent.content_block_delta
            (some (st.content_index + 1)) (DeltaKind.input_json_delta d)) ++
          (doneEmitP (d0 ++ String.join (sumInls mid))
              tool.arguments).map (fun a => AEvent.content_block_delta
            (some (st.content_index + 1))
            (DeltaKind.input_json_delta a)))))),
      post, ?_, ?_, htd⟩
    · simp [List.append_assoc]
    · cases hst : st.started <;>
        simp [textDeltas_append, textDeltas_cons, textDeltas_textMap,
          textDeltas_jsonMap, textDeltas_nil, hst]

/-- C4 (amended): for upstream text `t1s` before a tool, an interleaving
`mid` of further argument deltas and text deltas while the tool block is
active, the tool closed by its `output_item.done`, then text `t3s` (all
text payloads non-empty; empty ones are skipped by the code): the emitted
`text_delta` payloads are exactly `t1s ++ T2 ++ t3s` in order (`T2` the
buffered texts of `mid`), and the stream splits at the tool block's
`content_block_stop` with exactly `t1s` before it and `T2 ++ t3s` after
it. -/
theorem c4_text_preservation_protocol (t1s : List String) (tool : ToolSpec)
    (d0 : String) (mid : List (String ⊕ String)) (t3s : List String)
    (resp : Option RespF) (model : String) (message_id : Option String)
    (u : String)
    (hid : tool.id ≠ "")
    (h1 : ∀ y ∈ t1s, y ≠ "")
    (h2 : ∀ y ∈ sumInrs mid, y ≠ "")
    (h3 : ∀ y ∈ t3s, y ≠ "") :
    textDeltas (iter_anthropic_events
        (textAroundToolEvents t1s tool d0 mid t3s resp) model message_id u
        false) = t1s ++ sumInrs mid ++ t3s ∧
    ∃ pre post,
      iter_anthropic_events (textAroundToolEvents t1s tool d0 mid t3s resp)
          model message_id u false =
        pre ++ AEvent.content_block_stop
          (some (if t1s = [] then 0 else 1)) :: post ∧
      textDeltas pre = t1s ∧
      textDeltas post = sumInrs mid ++ t3s := by
  obtain ⟨pre, post, heq, hpre, hpost⟩ := c4_run_split t1s tool d0 mid t3s
    resp { message_id := strOr message_id ("msg_" ++ u), model := model }
    rfl rfl rfl rfl hid h1 h2 h3
  have heq2 : iter_anthropic_events
      (textAroundToolEvents t1s tool d0 mid t3s resp) model message_id u
        false =
      pre ++ AEvent.content_block_stop
        (some (if t1s = [] then 0 else 1)) :: post := heq
  refine ⟨?_, pre, post, heq2, hpre, hpost⟩
  rw [heq2, textDeltas_append, textDeltas_cons, hpost]
  simp [hpre, List.append_assoc]



theorem c4_text_preservation_protocol_witness :
    c4WitnessTool.id ≠ "" ∧
    (∀ y ∈ ["Hello "], y ≠ "") ∧
    (∀ y ∈ sumInrs c4WitnessMid, y ≠ "") ∧
    (∀ y ∈ ["!"], y ≠ "") ∧
    (textDeltas (iter_anthropic_events
        (textAroundToolEvents ["Hello "] c4WitnessTool "\x7b\"q\":"
          c4WitnessMid ["!"] none) "m" (some "msg_w4") "" false) =
      ["Hello "] ++ sumInrs c4WitnessMid ++ ["!"] ∧
     ∃ pre post,
       iter_anthropic_events
           (textAroundToolEvents ["Hello "] c4WitnessTool "\x7b\"q\":"
             c4WitnessMid ["!"] none) "m" (some "msg_w4") "" false =
         pre ++ AEvent.content_block_stop
           (some (if (["Hello "] : List String) = [] then 0 else 1)) ::
             post ∧
       textDeltas pre = ["Hello "] ∧
       textDeltas post = sumInrs c4WitnessMid ++ ["!"]) :=
  ⟨by decide, by decide, by decide, by decide,
   c4_text_preservation_protocol ["Hello "] c4WitnessTool "\x7b\"q\":"
     c4WitnessMid ["!"] none "m" (some "msg_w4") ""
     (by decide) (by decide) (by decide) (by decide)⟩
